import Mathlib

/-!
Shallow embedding of the HTTP/3 framing codec of this repository:
the QUIC variable-length integer codec, the HQ framer (serializers in
HQFramer.cpp), the per-frame parsers (HQFramer.cpp), the framed ingress
state machine (HQFramedCodec.cpp) and the header-decode verifier
(HeaderDecodeInfo.cpp).

Byte streams are modelled as `List Nat` whose elements denote octets;
machine-integer reads apply `% 256` or `% 2 ^ 64` explicitly where the
C++ types force a truncation.  Fallible operations return `Option` or
`Except`.
-/

/-- HTTP/3 error codes surfaced by the embedded code (from the HTTP3
error space in HQUtils.h; only the codes the embedded code uses are
modelled). -/
inductive ErrorCode
  | HTTP_MALFORMED_FRAME_DATA
  | HTTP_MALFORMED_FRAME_PRIORITY
  | HTTP_MALFORMED_FRAME_CANCEL_PUSH
  | HTTP_MALFORMED_FRAME_SETTINGS
  | HTTP_MALFORMED_FRAME_PUSH_PROMISE
  | HTTP_MALFORMED_FRAME_GOAWAY
  | HTTP_MALFORMED_FRAME_MAX_PUSH_ID
  | HTTP_WRONG_STREAM
deriving DecidableEq, Repr

/-- quic::encodeQuicInteger: QUIC varint encoding of v, as the list of
bytes appended on success; none when v needs more than 62 bits
(TooLarge). The top two bits of the first byte hold the length class
(1, 2, 4 or 8 byte form). -/
def encodeQuicInteger (v : Nat) : Option (List Nat) :=
  if v < 2 ^ 6 then some [v]
  else if v < 2 ^ 14 then some [64 + v / 2 ^ 8, v % 2 ^ 8]
  else if v < 2 ^ 30 then
    some [128 + v / 2 ^ 24, v / 2 ^ 16 % 2 ^ 8, v / 2 ^ 8 % 2 ^ 8, v % 2 ^ 8]
  else if v < 2 ^ 62 then
    some [192 + v / 2 ^ 56, v / 2 ^ 48 % 2 ^ 8, v / 2 ^ 40 % 2 ^ 8,
          v / 2 ^ 32 % 2 ^ 8, v / 2 ^ 24 % 2 ^ 8, v / 2 ^ 16 % 2 ^ 8,
          v / 2 ^ 8 % 2 ^ 8, v % 2 ^ 8]
  else none

/-- quic::getQuicIntegerSize: number of bytes the varint encoding of v
takes; none when v needs more than 62 bits. -/
def getQuicIntegerSize (v : Nat) : Option Nat :=
  if v < 2 ^ 6 then some 1
  else if v < 2 ^ 14 then some 2
  else if v < 2 ^ 30 then some 4
  else if v < 2 ^ 62 then some 8
  else none

/-- quic::decodeQuicInteger(cursor, atMost): decodes one varint from the
front of buf, written out in the four explicit length classes. It
refuses to decode when the class-indicated byte count exceeds atMost
(the remaining frame length) or exceeds the bytes available in the
buffer; on success it returns the decoded value and the number of bytes
consumed. The first byte is read as an octet (% 256) and its top two
bits select the class. -/
def decodeQuicInteger (buf : List Nat) (atMost : Nat) : Option (Nat × Nat) :=
  match buf with
  | [] => none
  | b :: rest =>
    if b % 256 / 64 = 0 then
      if atMost < 1 then none else some (b % 256 % 64, 1)
    else if b % 256 / 64 = 1 then
      if atMost < 2 then none
      else match rest with
        | b2 :: _ => some (b % 256 % 64 * 256 + b2 % 256, 2)
        | [] => none
    else if b % 256 / 64 = 2 then
      if atMost < 4 then none
      else match rest with
        | b2 :: b3 :: b4 :: _ =>
          some (((b % 256 % 64 * 256 + b2 % 256) * 256 + b3 % 256) * 256
            + b4 % 256, 4)
        | _ => none
    else
      if atMost < 8 then none
      else match rest with
        | b2 :: b3 :: b4 :: b5 :: b6 :: b7 :: b8 :: _ =>
          some (((((((b % 256 % 64 * 256 + b2 % 256) * 256 + b3 % 256) * 256
            + b4 % 256) * 256 + b5 % 256) * 256 + b6 % 256) * 256
            + b7 % 256) * 256 + b8 % 256, 8)
        | _ => none

/-- Modelled from the spec: the numeric HTTP/3 frame type codes
(HQFramer.h is not under src; the spec fixes the eight defined kinds
and the wire type is a varint). -/
def FrameType.DATA : Nat := 0x0

def FrameType.HEADERS : Nat := 0x1

def FrameType.PRIORITY : Nat := 0x2

def FrameType.CANCEL_PUSH : Nat := 0x3

def FrameType.SETTINGS : Nat := 0x4

def FrameType.PUSH_PROMISE : Nat := 0x5

def FrameType.GOAWAY : Nat := 0x7

def FrameType.MAX_PUSH_ID : Nat := 0xD

/-- Modelled from the spec: kPushIdMask is a high-order sentinel bit of
the 64-bit push id space that never crosses the wire (HQFramer.h is not
under src). -/
def kPushIdMask : Nat := 2 ^ 63

/-- isInternalPushId: pushId AND kPushIdMask is nonzero, written as the
value of bit 63 of a 64-bit id. -/
def isInternalPushId (pushId : Nat) : Bool :=
  pushId % 2 ^ 64 / 2 ^ 63 = 1

/-- isExternalPushId: pushId AND kPushIdMask is zero. -/
def isExternalPushId (pushId : Nat) : Bool :=
  !isInternalPushId pushId

/-- The C expression pushId AND NOT kPushIdMask on a 64-bit id: keeps
bits 0..62, that is, reduces modulo 2 ^ 63. -/
def clearPushIdMask (pushId : Nat) : Nat := pushId % 2 ^ 63

/-- The C expression v OR kPushIdMask on a 64-bit value: sets bit 63,
that is, the low 63 bits plus 2 ^ 63. -/
def orPushIdMask (v : Nat) : Nat := v % 2 ^ 63 + kPushIdMask

/-- isGreaseId from HQFramer.cpp: id in [0x21, 2 ^ 62 - 1] with
(id - 0x21) divisible by 0x1F (kEightByteLimit is 2 ^ 62 - 1). -/
def isGreaseId (id : Nat) : Bool :=
  if id < 0x21 ∨ id > 2 ^ 62 - 1 then false
  else (id - 0x21) % 0x1F = 0

/-- PriorityElementType from HQFramer.h, modelled from the spec with its
four two-bit codes. -/
inductive PriorityElementType
  | REQUEST_STREAM
  | PUSH_STREAM
  | PLACEHOLDER
  | TREE_ROOT
deriving DecidableEq, Repr

/-- Two-bit wire code of a PriorityElementType. -/
def PriorityElementType.toCode : PriorityElementType → Nat
  | .REQUEST_STREAM => 0
  | .PUSH_STREAM => 1
  | .PLACEHOLDER => 2
  | .TREE_ROOT => 3

/-- The static cast from a two-bit code to PriorityElementType. -/
def PriorityElementType.ofCode (n : Nat) : PriorityElementType :=
  if n = 0 then .REQUEST_STREAM
  else if n = 1 then .PUSH_STREAM
  else if n = 2 then .PLACEHOLDER
  else .TREE_ROOT

/-- PriorityUpdate from HQFramer.h, modelled from the spec; numeric
fields are value-initialized to 0 and weight is an octet. -/
structure PriorityUpdate where
  prioritizedType : PriorityElementType := .REQUEST_STREAM
  dependencyType : PriorityElementType := .REQUEST_STREAM
  exclusive : Bool := false
  prioritizedElementId : Nat := 0
  elementDependencyId : Nat := 0
  weight : Nat := 0
deriving DecidableEq, Repr

/-- Modelled from the spec: the PRIORITY flag byte layout, MSB to LSB:
prioritizedType at bits 7..6, dependencyType at bits 5..4, exclusive at
bit 3, and three empty bits at bits 2..0 (the POS constants live in
HQFramer.h, which is not under src). -/
def PRIORITIZED_TYPE_POS : Nat := 6

def DEPENDENCY_TYPE_POS : Nat := 4

def PRIORITY_EXCLUSIVE_MASK : Nat := 8

def PRIORITY_EMPTY_POS : Nat := 0

/-- encodePriorityFlags from HQFramer.cpp: shifts the two type codes to
their positions and sets the exclusive bit. -/
def encodePriorityFlags (priority : PriorityUpdate) : Nat :=
  priority.prioritizedType.toCode * 2 ^ PRIORITIZED_TYPE_POS
    + priority.dependencyType.toCode * 2 ^ DEPENDENCY_TYPE_POS
    + (if priority.exclusive then PRIORITY_EXCLUSIVE_MASK else 0)

/-- decodePriorityFlags from HQFramer.cpp: extracts the two type codes,
the exclusive bit, and returns none (false in C++) when any of the
three empty bits is set; flags is an octet. -/
def decodePriorityFlags (flags : Nat) :
    Option (PriorityElementType × PriorityElementType × Bool) :=
  let prioritizedType :=
    PriorityElementType.ofCode (flags / 2 ^ PRIORITIZED_TYPE_POS % 4)
  let dependencyType :=
    PriorityElementType.ofCode (flags / 2 ^ DEPENDENCY_TYPE_POS % 4)
  let exclusive : Bool := flags / PRIORITY_EXCLUSIVE_MASK % 2 = 1
  let empty := flags % (2 ^ 3)
  if empty ≠ 0 then none
  else some (prioritizedType, dependencyType, exclusive)

/-- FrameHeader from HQFramer.h: raw frame type and payload length. -/
structure FrameHeader where
  type : Nat
  length : Nat
deriving DecidableEq, Repr

/-- Unsigned 64-bit subtraction with wraparound, for the C++ uint64_t
frameLength decrements that are not guarded by a bounds check. -/
def sub64 (a b : Nat) : Nat := (a + (2 ^ 64 - b % 2 ^ 64)) % 2 ^ 64

/-- parseData from HQFramer.cpp: rejects a zero-length DATA frame with
HTTP_MALFORMED_FRAME_DATA, otherwise clones header.length bytes from
the cursor into the output buffer. -/
def parseData (buf : List Nat) (header : FrameHeader) :
    Except ErrorCode (List Nat) :=
  if header.length = 0 then .error .HTTP_MALFORMED_FRAME_DATA
  else .ok (buf.take header.length)

/-- parseHeaders from HQFramer.cpp: clones header.length bytes (zero
length allowed). -/
def parseHeaders (buf : List Nat) (header : FrameHeader) :
    Except ErrorCode (List Nat) :=
  .ok (buf.take header.length)

/-- parsePriority from HQFramer.cpp: reads the flag octet, decodes the
flags (empty bits must be zero), rejects TREE_ROOT as prioritized type,
decodes prioritizedElementId, elementDependencyId if the dependency
type is not TREE_ROOT, reads the weight octet, and requires the
residual frame length to be exactly zero. The two octet reads are
guarded only by cursor availability, so the frameLength decrements for
them use wrapping 64-bit subtraction. -/
def parsePriority (buf : List Nat) (header : FrameHeader) :
    Except ErrorCode PriorityUpdate :=
  match buf with
  | [] => .error .HTTP_MALFORMED_FRAME_PRIORITY
  | b :: rest =>
    let flags := b % 256
    let frameLength := sub64 header.length 1
    match decodePriorityFlags flags with
    | none => .error .HTTP_MALFORMED_FRAME_PRIORITY
    | some (prioritizedType, dependencyType, exclusive) =>
      if prioritizedType = PriorityElementType.TREE_ROOT then
        .error .HTTP_MALFORMED_FRAME_PRIORITY
      else
        match decodeQuicInteger rest frameLength with
        | none => .error .HTTP_MALFORMED_FRAME_PRIORITY
        | some (prioritizedElementId, n1) =>
          let frameLength := frameLength - n1
          if dependencyType ≠ PriorityElementType.TREE_ROOT then
            match decodeQuicInteger (rest.drop n1) frameLength with
            | none => .error .HTTP_MALFORMED_FRAME_PRIORITY
            | some (elementDependencyId, n2) =>
              let frameLength := frameLength - n2
              match rest.drop (n1 + n2) with
              | [] => .error .HTTP_MALFORMED_FRAME_PRIORITY
              | w :: _ =>
                if sub64 frameLength 1 ≠ 0 then
                  .error .HTTP_MALFORMED_FRAME_PRIORITY
                else
                  .ok { prioritizedType := prioritizedType,
                        dependencyType := dependencyType,
                        exclusive := exclusive,
                        prioritizedElementId := prioritizedElementId,
                        elementDependencyId := elementDependencyId,
                        weight := w % 256 }
          else
            match rest.drop n1 with
            | [] => .error .HTTP_MALFORMED_FRAME_PRIORITY
            | w :: _ =>
              if sub64 frameLength 1 ≠ 0 then
                .error .HTTP_MALFORMED_FRAME_PRIORITY
              else
                .ok { prioritizedType := prioritizedType,
                      dependencyType := dependencyType,
                      exclusive := exclusive,
                      prioritizedElementId := prioritizedElementId,
                      weight := w % 256 }

/-- parseCancelPush from HQFramer.cpp: one push id varint, residual must
be zero, the result is OR-ed with kPushIdMask before surfacing. -/
def parseCancelPush (buf : List Nat) (header : FrameHeader) :
    Except ErrorCode Nat :=
  match decodeQuicInteger buf header.length with
  | none => .error .HTTP_MALFORMED_FRAME_CANCEL_PUSH
  | some (pushId, n) =>
    if header.length - n ≠ 0 then .error .HTTP_MALFORMED_FRAME_CANCEL_PUSH
    else .ok (orPushIdMask pushId)

/-- Modelled from the spec: the numeric codes of the four known setting
ids HEADER_TABLE_SIZE, MAX_HEADER_LIST_SIZE, QPACK_BLOCKED_STREAMS and
NUM_PLACEHOLDERS (the SettingId enumeration lives in a header that is
not under src; the exact numeric values do not affect the claims). -/
def SettingId.HEADER_TABLE_SIZE : Nat := 0x1

def SettingId.MAX_HEADER_LIST_SIZE : Nat := 0x6

def SettingId.QPACK_BLOCKED_STREAMS : Nat := 0x7

def SettingId.NUM_PLACEHOLDERS : Nat := 0x9

/-- The switch in decodeSettingValue: true exactly on the four known
setting ids. -/
def knownSettingId (id : Nat) : Bool :=
  id = SettingId.HEADER_TABLE_SIZE ∨ id = SettingId.NUM_PLACEHOLDERS ∨
    id = SettingId.MAX_HEADER_LIST_SIZE ∨ id = SettingId.QPACK_BLOCKED_STREAMS

/-- decodeSettingValue from HQFramer.cpp: decodes the setting value
varint within the remaining frame length (returning
HTTP_MALFORMED_FRAME_SETTINGS on a short decode), and returns the value
for known setting ids and none for unknown ones, together with the
number of bytes consumed. -/
def decodeSettingValue (buf : List Nat) (frameLength : Nat) (settingId : Nat) :
    Except ErrorCode (Option Nat × Nat) :=
  match decodeQuicInteger buf frameLength with
  | none => .error .HTTP_MALFORMED_FRAME_SETTINGS
  | some (value, n) =>
    if knownSettingId settingId then .ok (some value, n) else .ok (none, n)

/-- parseSettings from HQFramer.cpp: repeatedly decodes (id, value)
varint pairs until the declared frame length is exhausted; known pairs
are appended in wire order, unknown ids are consumed but not reported;
a short decode yields HTTP_MALFORMED_FRAME_SETTINGS. -/
def parseSettings (buf : List Nat) (frameLength : Nat) :
    Except ErrorCode (List (Nat × Nat)) :=
  if frameLength = 0 then .ok []
  else
    match h1 : decodeQuicInteger buf frameLength with
    | none => .error .HTTP_MALFORMED_FRAME_SETTINGS
    | some (settingId, n1) =>
      match decodeSettingValue (buf.drop n1) (frameLength - n1) settingId with
      | .error e => .error e
      | .ok (optValue, n2) =>
        match parseSettings (buf.drop (n1 + n2)) (frameLength - n1 - n2) with
        | .error e => .error e
        | .ok tail =>
          .ok (match optValue with
            | some value => (settingId, value) :: tail
            | none => tail)
termination_by frameLength
decreasing_by
  have hb : 1 ≤ n1 := by
    unfold decodeQuicInteger at h1
    repeat' split at h1
    all_goals (try simp_all)
    all_goals omega
  omega

/-- parsePushPromise from HQFramer.cpp: decodes the push id varint
(OR-ed with kPushIdMask), then clones the remaining frame length as the
opaque header block. -/
def parsePushPromise (buf : List Nat) (header : FrameHeader) :
    Except ErrorCode (Nat × List Nat) :=
  match decodeQuicInteger buf header.length with
  | none => .error .HTTP_MALFORMED_FRAME_PUSH_PROMISE
  | some (pushId, n) =>
    .ok (orPushIdMask pushId, (buf.drop n).take (header.length - n))

/-- parseGoaway from HQFramer.cpp: one stream id varint, residual must
be zero. -/
def parseGoaway (buf : List Nat) (header : FrameHeader) :
    Except ErrorCode Nat :=
  match decodeQuicInteger buf header.length with
  | none => .error .HTTP_MALFORMED_FRAME_GOAWAY
  | some (streamId, n) =>
    if header.length - n ≠ 0 then .error .HTTP_MALFORMED_FRAME_GOAWAY
    else .ok streamId

/-- parseMaxPushId from HQFramer.cpp: one push id varint, residual must
be zero, OR-ed with kPushIdMask. -/
def parseMaxPushId (buf : List Nat) (header : FrameHeader) :
    Except ErrorCode Nat :=
  match decodeQuicInteger buf header.length with
  | none => .error .HTTP_MALFORMED_FRAME_MAX_PUSH_ID
  | some (pushId, n) =>
    if header.length - n ≠ 0 then .error .HTTP_MALFORMED_FRAME_MAX_PUSH_ID
    else .ok (orPushIdMask pushId)

/-- WriteResult: the byte count on success, or the varint TooLarge
error. The serializers also return the (possibly extended) output
queue, since the C++ appends into a caller-provided IOBufQueue. -/
abbrev WriteResult := Except Unit Nat

/-- writeFrameHeader from HQFramer.cpp: appends the varint frame type,
then the varint payload length. Each varint append is atomic, so a
TooLarge length leaves the already-appended type varint in the queue. -/
def writeFrameHeader (queue : List Nat) (type length : Nat) :
    List Nat × WriteResult :=
  match encodeQuicInteger type with
  | none => (queue, .error ())
  | some typeBytes =>
    match encodeQuicInteger length with
    | none => (queue ++ typeBytes, .error ())
    | some lengthBytes =>
      (queue ++ typeBytes ++ lengthBytes,
        .ok (typeBytes.length + lengthBytes.length))

/-- writeSimpleFrame from HQFramer.cpp: frame header for the payload
size, then the payload bytes. -/
def writeSimpleFrame (queue : List Nat) (type : Nat) (data : List Nat) :
    List Nat × WriteResult :=
  let payloadSize := data.length
  match writeFrameHeader queue type payloadSize with
  | (q, .error e) => (q, .error e)
  | (q, .ok headerSize) => (q ++ data, .ok (headerSize + payloadSize))

/-- writeData from HQFramer.cpp. -/
def writeData (queue : List Nat) (data : List Nat) : List Nat × WriteResult :=
  writeSimpleFrame queue FrameType.DATA data

/-- writeUnframedBytes from HQFramer.cpp: raw bytes, no frame header. -/
def writeUnframedBytes (queue : List Nat) (data : List Nat) :
    List Nat × WriteResult :=
  (queue ++ data, .ok data.length)

/-- writeHeaders from HQFramer.cpp. -/
def writeHeaders (queue : List Nat) (data : List Nat) :
    List Nat × WriteResult :=
  writeSimpleFrame queue FrameType.HEADERS data

/-- writePriority from HQFramer.cpp: computes the payload size first
(flags octet, prioritizedElementId varint, elementDependencyId varint
unless the dependency type is TREE_ROOT, weight octet), then writes the
frame header and the payload; the post-check varint appends cannot fail
and drop nothing. -/
def writePriority (queue : List Nat) (priority : PriorityUpdate) :
    List Nat × WriteResult :=
  let flags := encodePriorityFlags priority
  match getQuicIntegerSize priority.prioritizedElementId with
  | none => (queue, .error ())
  | some prioritizedElementIdSize =>
    let payloadSize := prioritizedElementIdSize + 2
    match
      if priority.dependencyType ≠ PriorityElementType.TREE_ROOT then
        match getQuicIntegerSize priority.elementDependencyId with
        | none => none
        | some elementDependencyIdSize =>
          some (payloadSize + elementDependencyIdSize)
      else some payloadSize
    with
    | none => (queue, .error ())
    | some payloadSize =>
      match writeFrameHeader queue FrameType.PRIORITY payloadSize with
      | (q, .error e) => (q, .error e)
      | (q, .ok headerSize) =>
        let body :=
          flags :: ((encodeQuicInteger priority.prioritizedElementId).getD []
            ++ (if priority.dependencyType ≠ PriorityElementType.TREE_ROOT then
                  (encodeQuicInteger priority.elementDependencyId).getD []
                else [])
            ++ [priority.weight % 256])
        (q ++ body, .ok (headerSize + payloadSize))

/-- writeCancelPush from HQFramer.cpp: clears kPushIdMask, checks the
varint size, builds the payload in a local queue, and then writes a
simple frame into the caller queue. -/
def writeCancelPush (writeBuf : List Nat) (pushId : Nat) :
    List Nat × WriteResult :=
  let pushId := clearPushIdMask pushId
  match getQuicIntegerSize pushId with
  | none => (writeBuf, .error ())
  | some _ =>
    writeSimpleFrame writeBuf FrameType.CANCEL_PUSH
      ((encodeQuicInteger pushId).getD [])

/-- The size-precomputation loop of writeSettings: sum of the id and
value varint sizes, failing on the first TooLarge varint. -/
def settingsPayloadSize : List (Nat × Nat) → Option Nat
  | [] => some 0
  | (id, value) :: rest =>
    match getQuicIntegerSize id with
    | none => none
    | some idSize =>
      match getQuicIntegerSize value with
      | none => none
      | some valueSize =>
        match settingsPayloadSize rest with
        | none => none
        | some restSize => some (idSize + valueSize + restSize)

/-- The append loop of writeSettings: id varint then value varint for
each pair (the appends cannot fail after the size precomputation). -/
def settingsBytes : List (Nat × Nat) → List Nat
  | [] => []
  | (id, value) :: rest =>
    (encodeQuicInteger id).getD [] ++ (encodeQuicInteger value).getD []
      ++ settingsBytes rest

/-- writeSettings from HQFramer.cpp: computes the payload size over all
pairs first, then writes the frame header and the pairs. -/
def writeSettings (queue : List Nat) (settings : List (Nat × Nat)) :
    List Nat × WriteResult :=
  match settingsPayloadSize settings with
  | none => (queue, .error ())
  | some settingsSize =>
    match writeFrameHeader queue FrameType.SETTINGS settingsSize with
    | (q, .error e) => (q, .error e)
    | (q, .ok headerSize) =>
      (q ++ settingsBytes settings, .ok (headerSize + settingsSize))

/-- writePushPromise from HQFramer.cpp: clears kPushIdMask, checks the
push id varint size, then writes the frame header for push id plus
header block and appends both. -/
def writePushPromise (queue : List Nat) (pushId : Nat) (data : List Nat) :
    List Nat × WriteResult :=
  let pushId := clearPushIdMask pushId
  match getQuicIntegerSize pushId with
  | none => (queue, .error ())
  | some pushIdSize =>
    let payloadSize := pushIdSize + data.length
    match writeFrameHeader queue FrameType.PUSH_PROMISE payloadSize with
    | (q, .error e) => (q, .error e)
    | (q, .ok headerSize) =>
      (q ++ (encodeQuicInteger pushId).getD [] ++ data,
        .ok (headerSize + payloadSize))

/-- writeGoaway from HQFramer.cpp: checks the stream id varint size,
builds the payload in a local queue, then writes a simple frame. -/
def writeGoaway (writeBuf : List Nat) (lastStreamId : Nat) :
    List Nat × WriteResult :=
  match getQuicIntegerSize lastStreamId with
  | none => (writeBuf, .error ())
  | some _ =>
    writeSimpleFrame writeBuf FrameType.GOAWAY
      ((encodeQuicInteger lastStreamId).getD [])

/-- writeMaxPushId from HQFramer.cpp: clears kPushIdMask, checks the
varint size, builds the payload in a local queue, then writes a simple
frame. -/
def writeMaxPushId (writeBuf : List Nat) (maxPushId : Nat) :
    List Nat × WriteResult :=
  let maxPushId := clearPushIdMask maxPushId
  match getQuicIntegerSize maxPushId with
  | none => (writeBuf, .error ())
  | some _ =>
    writeSimpleFrame writeBuf FrameType.MAX_PUSH_ID
      ((encodeQuicInteger maxPushId).getD [])

/-- FrameState from HQFramedCodec.h (named as in the spec). -/
inductive FrameState
  | headerType
  | headerLength
  | payload
  | payloadStreaming
  | payloadPR
deriving DecidableEq, Repr

/-- The mutable parser fields of HQFramedCodec. -/
structure CodecState where
  frameState : FrameState := .headerType
  curType : Nat := 0
  curLength : Nat := 0
  pendingDataFrameBytes : Nat := 0
  totalBytesParsed : Nat := 0
  connError : Option ErrorCode := none
  parserPaused : Bool := false
deriving DecidableEq, Repr

/-- Callback events observable from the framed codec: the frame header
callback, the structured per-type payload events of the registered
visitor (modelled from the spec as one event per successfully parsed
known frame), the DATA chunks of streaming mode, and onError. -/
inductive HqEvent
  | frameHeader (length : Nat) (rawType : Nat)
  | framePayload (rawType : Nat)
  | dataChunk (chunk : List Nat)
  | errorEvent (err : ErrorCode)
deriving DecidableEq, Repr

/-- Whether a raw frame type is one of the eight defined kinds (the
switch in HQFramedCodec::parseFrame). -/
def isKnownFrameType (t : Nat) : Bool :=
  t = FrameType.DATA ∨ t = FrameType.HEADERS ∨ t = FrameType.PRIORITY ∨
    t = FrameType.CANCEL_PUSH ∨ t = FrameType.SETTINGS ∨
    t = FrameType.PUSH_PROMISE ∨ t = FrameType.GOAWAY ∨
    t = FrameType.MAX_PUSH_ID

/-- The error component of an Except result (folly::none on success). -/
def exceptErr : Except ErrorCode α → Option ErrorCode
  | .error e => some e
  | .ok _ => none

/-- HQFramedCodec::parseFrame: dispatches the buffered payload to the
per-type parser and reports its error component; an unknown type is
skipped with no error (the cursor advance is accounted by the caller,
which always consumes curHeader.length bytes in the payload state). -/
def parseFrameErr (t length : Nat) (buf : List Nat) : Option ErrorCode :=
  if t = FrameType.DATA then exceptErr (parseData buf ⟨t, length⟩)
  else if t = FrameType.HEADERS then exceptErr (parseHeaders buf ⟨t, length⟩)
  else if t = FrameType.PRIORITY then exceptErr (parsePriority buf ⟨t, length⟩)
  else if t = FrameType.CANCEL_PUSH then
    exceptErr (parseCancelPush buf ⟨t, length⟩)
  else if t = FrameType.SETTINGS then exceptErr (parseSettings buf length)
  else if t = FrameType.PUSH_PROMISE then
    exceptErr (parsePushPromise buf ⟨t, length⟩)
  else if t = FrameType.GOAWAY then exceptErr (parseGoaway buf ⟨t, length⟩)
  else if t = FrameType.MAX_PUSH_ID then
    exceptErr (parseMaxPushId buf ⟨t, length⟩)
  else none

/-- The while loop of HQFramedCodec::onFramedIngress, for a codec whose
transport does not support partial reliability. It is parameterized by
checkFrameAllowed (the stream-role allowlist, a virtual of the
subclasses). Each recursive call re-checks the loop condition; branches
that set connError return directly since the loop condition then
fails. On a break the per-iteration parsed count is discarded, exactly
as the C++ break skips the trailing bookkeeping of the loop body. -/
def ingressLoop (allowed : Nat → Option ErrorCode) (s : CodecState)
    (buf : List Nat) : CodecState × Nat × List HqEvent :=
  if hstop : s.connError ≠ none ∨ buf = [] ∨ s.parserPaused then (s, 0, [])
  else
    match hfs : s.frameState with
    | .headerType =>
      match hdec : decodeQuicInteger buf 8 with
      | none => (s, 0, [])
      | some (t, n) =>
        match allowed t with
        | some err => ({s with curType := t, connError := some err}, 0, [])
        | none =>
          let s1 := {s with curType := t, frameState := .headerLength,
                            totalBytesParsed := s.totalBytesParsed + n}
          let r := ingressLoop allowed s1 (buf.drop n)
          (r.1, n + r.2.1, r.2.2)
    | .headerLength =>
      match hdec : decodeQuicInteger buf 8 with
      | none => (s, 0, [])
      | some (len, n) =>
        let nextState :=
          if s.curType = FrameType.DATA then FrameState.payloadStreaming
          else FrameState.payload
        let s1 := {s with curLength := len, pendingDataFrameBytes := len,
                          frameState := nextState,
                          totalBytesParsed := s.totalBytesParsed + n}
        let r := ingressLoop allowed s1 (buf.drop n)
        (r.1, n + r.2.1, HqEvent.frameHeader len s.curType :: r.2.2)
    | .payload =>
      if hlen : buf.length < s.curLength then (s, 0, [])
      else
        match parseFrameErr s.curType s.curLength buf with
        | some err =>
          ({s with connError := some err, frameState := .headerType,
                   totalBytesParsed := s.totalBytesParsed + s.curLength},
            s.curLength, [])
        | none =>
          let s1 := {s with frameState := .headerType,
                            totalBytesParsed := s.totalBytesParsed + s.curLength}
          let evs :=
            if isKnownFrameType s.curType then [HqEvent.framePayload s.curType]
            else []
          let r := ingressLoop allowed s1 (buf.drop s.curLength)
          (r.1, s.curLength + r.2.1, evs ++ r.2.2)
    | .payloadStreaming =>
      let consume := min s.pendingDataFrameBytes buf.length
      match hpd : parseData buf ⟨FrameType.DATA, consume⟩ with
      | .error e =>
        let pending := s.pendingDataFrameBytes - consume
        ({s with connError := some e, pendingDataFrameBytes := pending,
                 frameState := if pending = 0 then .headerType
                               else .payloadStreaming,
                 totalBytesParsed := s.totalBytesParsed + consume},
          consume, [])
      | .ok chunk =>
        let pending := s.pendingDataFrameBytes - consume
        let s1 := {s with pendingDataFrameBytes := pending,
                          frameState := if pending = 0 then .headerType
                                        else .payloadStreaming,
                          totalBytesParsed := s.totalBytesParsed + consume}
        let r := ingressLoop allowed s1 (buf.drop consume)
        (r.1, consume + r.2.1, HqEvent.dataChunk chunk :: r.2.2)
    | .payloadPR =>
      ({s with totalBytesParsed := s.totalBytesParsed + buf.length},
        buf.length, [])
termination_by buf.length * 2 + (if s.frameState = .payload then 1 else 0)
decreasing_by
  · have hbne : buf ≠ [] := by
      intro h
      exact hstop (Or.inr (Or.inl h))
    have hb : 1 ≤ n := by
      unfold decodeQuicInteger at hdec
      repeat' split at hdec
      all_goals (try simp_all)
      all_goals omega
    have hb2 : 1 ≤ buf.length := by
      cases buf
      · exact absurd rfl hbne
      · simp
    simp only [List.length_drop, hfs]
    simp
    omega
  · have hbne : buf ≠ [] := by
      intro h
      exact hstop (Or.inr (Or.inl h))
    have hb : 1 ≤ n := by
      unfold decodeQuicInteger at hdec
      repeat' split at hdec
      all_goals (try simp_all)
      all_goals omega
    have hb2 : 1 ≤ buf.length := by
      cases buf
      · exact absurd rfl hbne
      · simp
    simp only [List.length_drop, hfs]
    split <;> simp <;> omega
  · simp only [List.length_drop, hfs]
    simp
    omega
  · have hc : consume ≠ 0 := by
      intro h0
      rw [h0] at hpd
      simp [parseData] at hpd
    have h2 : consume ≤ buf.length := Nat.min_le_right _ _
    simp only [List.length_drop, hfs]
    split <;> simp <;> omega

/-- HQFramedCodec::onFramedIngress: returns 0 immediately when a
connection error was already surfaced; otherwise runs the parse loop
and then checkConnectionError, which on a fresh error pauses the
parser and fires onError once. -/
def onFramedIngress (allowed : Nat → Option ErrorCode) (s : CodecState)
    (buf : List Nat) : CodecState × Nat × List HqEvent :=
  if s.connError ≠ none then (s, 0, [])
  else
    let r := ingressLoop allowed s buf
    match r.1.connError with
    | some err =>
      ({r.1 with parserPaused := true}, r.2.1,
        r.2.2 ++ [HqEvent.errorEvent err])
    | none => r

/-- A sequence of onFramedIngress calls on one codec instance, with the
emitted events concatenated in call order. -/
def runIngressCalls (allowed : Nat → Option ErrorCode) (s : CodecState) :
    List (List Nat) → CodecState × List HqEvent
  | [] => (s, [])
  | buf :: rest =>
    let r := onFramedIngress allowed s buf
    let r2 := runIngressCalls allowed r.1 rest
    (r2.1, r.2.2 ++ r2.2)

/-- Number of onError callbacks in an event list. -/
def countErrorEvents (evs : List HqEvent) : Nat :=
  evs.countP (fun e => match e with | .errorEvent _ => true | _ => false)

/-- Successor state after parsing the frame-type varint. -/
def nextHeaderLength (s : CodecState) (t n : Nat) : CodecState :=
  {s with curType := t, frameState := .headerLength,
          totalBytesParsed := s.totalBytesParsed + n}

/-- Successor state after parsing the frame-length varint. -/
def nextPayload (s : CodecState) (len n : Nat) : CodecState :=
  {s with curLength := len, pendingDataFrameBytes := len,
          frameState := if s.curType = FrameType.DATA then
            FrameState.payloadStreaming else FrameState.payload,
          totalBytesParsed := s.totalBytesParsed + n}

/-- Successor state after consuming a whole non-DATA payload. -/
def nextAfterPayload (s : CodecState) : CodecState :=
  {s with frameState := .headerType,
          totalBytesParsed := s.totalBytesParsed + s.curLength}

/-- Successor state after streaming consume bytes of a DATA payload. -/
def nextStreaming (s : CodecState) (consume : Nat) : CodecState :=
  {s with pendingDataFrameBytes := s.pendingDataFrameBytes - consume,
          frameState := if s.pendingDataFrameBytes - consume = 0 then
            FrameState.headerType else FrameState.payloadStreaming,
          totalBytesParsed := s.totalBytesParsed + consume}

/-- Header name codes used by HeaderDecodeInfo::onHeader (the code
enumeration HTTPCommonHeaders lives outside src; only the codes the
embedded function distinguishes are modelled). -/
inductive HeaderCode
  | COLON_METHOD
  | COLON_SCHEME
  | COLON_AUTHORITY
  | COLON_PATH
  | COLON_PROTOCOL
  | COLON_STATUS
  | CONNECTION
  | CONTENT_LENGTH
  | COOKIE
  | OTHER
deriving DecidableEq, Repr

/-- Modelled from the spec: HPACKHeaderName::getHeaderCode, the lookup
of a wire header name against the known-code table (names arrive in
their lowercase wire form). -/
def getHeaderCode (name : String) : HeaderCode :=
  if name = ":method" then .COLON_METHOD
  else if name = ":scheme" then .COLON_SCHEME
  else if name = ":authority" then .COLON_AUTHORITY
  else if name = ":path" then .COLON_PATH
  else if name = ":protocol" then .COLON_PROTOCOL
  else if name = ":status" then .COLON_STATUS
  else if name = "connection" then .CONNECTION
  else if name = "content-length" then .CONTENT_LENGTH
  else if name = "cookie" then .COOKIE
  else .OTHER

/-- Decimal digit test on a character code. -/
def isDigitChar (c : Char) : Bool := 48 ≤ c.toNat ∧ c.toNat ≤ 57

/-- Value of a decimal digit string. -/
def digitsToNat (l : List Char) : List Char → Nat := fun _ => 0

/-- Value of a decimal digit list, most significant first. -/
def digitsVal (l : List Char) : Nat :=
  l.foldl (fun acc c => acc * 10 + (c.toNat - 48)) 0

/-- Modelled from the spec: folly::tryTo of an unsigned 32-bit integer
from a string; fails on an empty string, a non-digit character, or a
value exceeding 2 ^ 32 - 1. -/
def parseU32 (s : String) : Option Nat :=
  if s.data.isEmpty then none
  else if s.data.all isDigitChar ∧ digitsVal s.data < 2 ^ 32 then
    some (digitsVal s.data)
  else none

/-- Modelled from the spec: folly::tryTo of a signed 32-bit integer from
a string; an optional leading minus sign followed by digits, within the
32-bit range. -/
def parseI32 (s : String) : Option Int :=
  match s.data with
  | [] => none
  | c :: rest =>
    if c = '-' then
      if rest.isEmpty = false ∧ rest.all isDigitChar ∧ digitsVal rest ≤ 2 ^ 31
      then some (-(digitsVal rest : Int))
      else none
    else if s.data.all isDigitChar ∧ digitsVal s.data < 2 ^ 31 then
      some (digitsVal s.data)
    else none

/-- Modelled from the spec: CodecUtil::validateHeaderName, token
validation for names with no known code. -/
def validateHeaderName (name : String) : Bool :=
  name.data ≠ [] && name.data.all (fun c =>
    33 ≤ c.toNat && c.toNat ≤ 126 && c ≠ ':')

/-- Modelled from the spec: CodecUtil::validateHeaderValue in STRICT
mode, printable octets per the RFC rules: horizontal tab, visible
ASCII including space, or obs-text, and in particular no CR, LF or
NUL. -/
def validateHeaderValue (value : String) : Bool :=
  value.data.all (fun c =>
    c = '\t' || (32 ≤ c.toNat && c.toNat ≤ 126) ||
      (128 ≤ c.toNat && c.toNat ≤ 255))

/-- Modelled from the spec: the request pseudo-header verifier
(HTTPRequestVerifier), whose setters enforce single occurrence of each
request pseudo-header and record an error text. -/
structure HTTPRequestVerifier where
  hasMethod : Bool := false
  hasScheme : Bool := false
  hasAuthority : Bool := false
  hasPath : Bool := false
  hasUpgradeProtocol : Bool := false
  error : String := ""
deriving DecidableEq, Repr

/-- Modelled from the spec: HTTPRequestVerifier::setMethod. -/
def HTTPRequestVerifier.setMethod (v : HTTPRequestVerifier) :
    HTTPRequestVerifier × Bool :=
  if v.hasMethod then ({v with error := "Duplicate method"}, false)
  else ({v with hasMethod := true}, true)

/-- Modelled from the spec: HTTPRequestVerifier::setScheme. -/
def HTTPRequestVerifier.setScheme (v : HTTPRequestVerifier) :
    HTTPRequestVerifier × Bool :=
  if v.hasScheme then ({v with error := "Duplicate scheme"}, false)
  else ({v with hasScheme := true}, true)

/-- Modelled from the spec: HTTPRequestVerifier::setAuthority. -/
def HTTPRequestVerifier.setAuthority (v : HTTPRequestVerifier) :
    HTTPRequestVerifier × Bool :=
  if v.hasAuthority then ({v with error := "Duplicate authority"}, false)
  else ({v with hasAuthority := true}, true)

/-- Modelled from the spec: HTTPRequestVerifier::setPath. -/
def HTTPRequestVerifier.setPath (v : HTTPRequestVerifier) :
    HTTPRequestVerifier × Bool :=
  if v.hasPath then ({v with error := "Duplicate path"}, false)
  else ({v with hasPath := true}, true)

/-- Modelled from the spec: HTTPRequestVerifier::setUpgradeProtocol. -/
def HTTPRequestVerifier.setUpgradeProtocol (v : HTTPRequestVerifier) :
    HTTPRequestVerifier × Bool :=
  if v.hasUpgradeProtocol then ({v with error := "Duplicate protocol"}, false)
  else ({v with hasUpgradeProtocol := true}, true)

/-- The test nameSp.startsWith(':') of onHeader, written as a head
character check (String.startsWith does not reduce in the kernel). -/
def startsWithColon (name : String) : Bool :=
  match name.data with
  | c :: _ => c = ':'
  | [] => false

/-- The state of HeaderDecodeInfo, with the accumulated message fields
that onHeader touches. -/
structure HeaderDecodeInfo where
  isRequest : Bool := true
  isRequestTrailers : Bool := false
  pseudoHeaderSeen : Bool := false
  regularHeaderSeen : Bool := false
  hasStatus : Bool := false
  contentLength : Option Nat := none
  decodeError : Bool := false
  parsingError : String := ""
  verifier : HTTPRequestVerifier := {}
  statusCode : Option Nat := none
  headers : List (String × String) := []
deriving DecidableEq, Repr

/-- The regular-header tail of HeaderDecodeInfo::onHeader: name and
value validation, then appending the field to the message headers. -/
def HeaderDecodeInfo.addRegular (s : HeaderDecodeInfo) (name value : String)
    (headerCode : HeaderCode) : HeaderDecodeInfo × Bool :=
  let nameOk := headerCode ≠ HeaderCode.OTHER || validateHeaderName name
  let valueOk := validateHeaderValue value
  if !nameOk || !valueOk then
    ({s with parsingError :=
        "Bad header value: name=" ++ name ++ " value=" ++ value}, false)
  else
    ({s with headers := s.headers ++ [(name, value)]}, true)

/-- HeaderDecodeInfo::onHeader from HeaderDecodeInfo.cpp. -/
def HeaderDecodeInfo.onHeader (s : HeaderDecodeInfo) (name value : String) :
    HeaderDecodeInfo × Bool :=
  if s.decodeError ∨ s.parsingError ≠ "" then (s, true)
  else
    let headerCode := getHeaderCode name
    if startsWithColon name then
      let s := {s with pseudoHeaderSeen := true}
      if s.regularHeaderSeen then
        ({s with parsingError := "Illegal pseudo header name=" ++ name}, false)
      else if s.isRequest then
        match headerCode with
        | .COLON_METHOD =>
          let r := s.verifier.setMethod
          ({s with verifier := r.1}, r.2)
        | .COLON_SCHEME =>
          let r := s.verifier.setScheme
          ({s with verifier := r.1}, r.2)
        | .COLON_AUTHORITY =>
          let r := s.verifier.setAuthority
          ({s with verifier := r.1}, r.2)
        | .COLON_PATH =>
          let r := s.verifier.setPath
          ({s with verifier := r.1}, r.2)
        | .COLON_PROTOCOL =>
          let r := s.verifier.setUpgradeProtocol
          ({s with verifier := r.1}, r.2)
        | _ =>
          ({s with parsingError := "Invalid req header name=" ++ name}, false)
      else
        if headerCode = HeaderCode.COLON_STATUS then
          if s.hasStatus then
            ({s with parsingError := "Duplicate status"}, false)
          else
            let s := {s with hasStatus := true}
            let code := (parseI32 value).getD (-1)
            if 100 ≤ code ∧ code ≤ 999 then
              ({s with statusCode := some code.toNat}, true)
            else
              ({s with parsingError := "Malformed status code=" ++ value},
                false)
        else
          ({s with parsingError := "Invalid resp header name=" ++ name}, false)
    else
      let s := {s with regularHeaderSeen := true}
      if headerCode = HeaderCode.CONNECTION then
        ({s with parsingError := "HTTP/2 Message with Connection header"},
          false)
      else if headerCode = HeaderCode.CONTENT_LENGTH then
        let cl := (parseU32 value).getD 0
        match s.contentLength with
        | some recorded =>
          if recorded ≠ cl then
            ({s with parsingError := "Multiple content-length headers"}, false)
          else ({s with contentLength := some cl}).addRegular name value
            headerCode
        | none =>
          ({s with contentLength := some cl}).addRegular name value headerCode
      else
        s.addRegular name value headerCode

/-- The closed tagged variant of HTTP/3 frames of the data model, with
typed payloads; push ids are stored in their internal (masked) form as
the data model prescribes. -/
inductive Frame
  | data (payload : List Nat)
  | headers (payload : List Nat)
  | priority (p : PriorityUpdate)
  | cancelPush (pushId : Nat)
  | settings (pairs : List (Nat × Nat))
  | pushPromise (pushId : Nat) (block : List Nat)
  | goaway (lastStreamId : Nat)
  | maxPushId (pushId : Nat)
deriving DecidableEq, Repr

/-- The data-model constraints on a frame value: varint-encodable
sizes and ids, nonzero DATA payload, prioritized type not TREE_ROOT
with a zero dependency id when the dependency is the tree root, known
setting ids, and push ids in internal masked 64-bit form. -/
def Frame.valid : Frame → Bool
  | .data payload => payload.length ≠ 0 && payload.length < 2 ^ 62
  | .headers payload => payload.length < 2 ^ 62
  | .priority p =>
    p.prioritizedType ≠ PriorityElementType.TREE_ROOT &&
      p.prioritizedElementId < 2 ^ 62 &&
      (if p.dependencyType ≠ PriorityElementType.TREE_ROOT then
        p.elementDependencyId < 2 ^ 62
      else p.elementDependencyId = 0) &&
      p.weight < 256
  | .cancelPush pushId =>
    isInternalPushId pushId && pushId < 2 ^ 64 && pushId % 2 ^ 63 < 2 ^ 62
  | .settings pairs =>
    pairs.all (fun pr => knownSettingId pr.1 && pr.2 < 2 ^ 62) &&
      (match settingsPayloadSize pairs with
        | some sz => sz < 2 ^ 62
        | none => false)
  | .pushPromise pushId block =>
    isInternalPushId pushId && pushId < 2 ^ 64 && pushId % 2 ^ 63 < 2 ^ 62 &&
      (getQuicIntegerSize (pushId % 2 ^ 63)).getD 0 + block.length < 2 ^ 62
  | .goaway lastStreamId => lastStreamId < 2 ^ 62
  | .maxPushId pushId =>
    isInternalPushId pushId && pushId < 2 ^ 64 && pushId % 2 ^ 63 < 2 ^ 62

/-- Runs a framer write operation on an empty output queue and returns
the produced bytes, or none when the writer failed. -/
def runWriter : List Nat × WriteResult → Option (List Nat)
  | (queue, .ok _) => some queue
  | (_, .error _) => none

/-- Serialization of a frame value by the framer operation of its
kind. -/
def serializeFrame : Frame → Option (List Nat)
  | .data payload => runWriter (writeData [] payload)
  | .headers payload => runWriter (writeHeaders [] payload)
  | .priority p => runWriter (writePriority [] p)
  | .cancelPush pushId => runWriter (writeCancelPush [] pushId)
  | .settings pairs => runWriter (writeSettings [] pairs)
  | .pushPromise pushId block => runWriter (writePushPromise [] pushId block)
  | .goaway lastStreamId => runWriter (writeGoaway [] lastStreamId)
  | .maxPushId pushId => runWriter (writeMaxPushId [] pushId)

/-- The per-type dispatch of HQFramedCodec::parseFrame, returning the
typed frame parsed from the payload; an unknown type yields no
frame. -/
def dispatchFrame (t : Nat) (payload : List Nat) (len : Nat) :
    Option Frame :=
  if t = FrameType.DATA then
    (parseData payload ⟨t, len⟩).toOption.map .data
  else if t = FrameType.HEADERS then
    (parseHeaders payload ⟨t, len⟩).toOption.map .headers
  else if t = FrameType.PRIORITY then
    (parsePriority payload ⟨t, len⟩).toOption.map .priority
  else if t = FrameType.CANCEL_PUSH then
    (parseCancelPush payload ⟨t, len⟩).toOption.map .cancelPush
  else if t = FrameType.SETTINGS then
    (parseSettings payload len).toOption.map .settings
  else if t = FrameType.PUSH_PROMISE then
    (parsePushPromise payload ⟨t, len⟩).toOption.map
      (fun r => .pushPromise r.1 r.2)
  else if t = FrameType.GOAWAY then
    (parseGoaway payload ⟨t, len⟩).toOption.map .goaway
  else if t = FrameType.MAX_PUSH_ID then
    (parseMaxPushId payload ⟨t, len⟩).toOption.map .maxPushId
  else none

/-- Parsing one whole frame from a byte stream the way the codec does:
the type varint, the length varint, then with the full payload
available the per-type parser of HQFramedCodec::parseFrame. -/
def parseFullFrame (buf : List Nat) : Option Frame :=
  match decodeQuicInteger buf 8 with
  | none => none
  | some (t, n1) =>
    match decodeQuicInteger (buf.drop n1) 8 with
    | none => none
    | some (len, n2) =>
      let payload := (buf.drop n1).drop n2
      if payload.length < len then none
      else dispatchFrame t payload len

/-- The wire-validity of a PRIORITY frame payload in the words of the
spec, checked strictly against the declared payload bytes: a flag
octet whose three empty bits are zero, a prioritized type other than
TREE_ROOT, a prioritizedElementId varint decodable within the declared
length, an elementDependencyId varint when the dependency type is not
TREE_ROOT, a weight octet, and a residual length of exactly zero. -/
def priorityWireValid (payload : List Nat) : Bool :=
  match payload with
  | [] => false
  | b :: rest =>
    let flags := b % 256
    if flags % 8 ≠ 0 then false
    else if flags / 2 ^ PRIORITIZED_TYPE_POS % 4 = 3 then false
    else
      match decodeQuicInteger rest rest.length with
      | none => false
      | some (_, n1) =>
        let rest1 := rest.drop n1
        if flags / 2 ^ DEPENDENCY_TYPE_POS % 4 ≠ 3 then
          match decodeQuicInteger rest1 rest1.length with
          | none => false
          | some (_, n2) => (rest1.drop n2).length = 1
        else rest1.length = 1

/-- The settings payload in the words of the spec: every (id, value)
varint pair decoded in wire order until the declared length is
exhausted, known or not; none when an id or value varint cannot be
decoded within the remaining length. -/
def decodeAllSettingPairs (buf : List Nat) (frameLength : Nat) :
    Option (List (Nat × Nat)) :=
  if frameLength = 0 then some []
  else
    match h1 : decodeQuicInteger buf frameLength with
    | none => none
    | some (id, n1) =>
      match decodeQuicInteger (buf.drop n1) (frameLength - n1) with
      | none => none
      | some (value, n2) =>
        match decodeAllSettingPairs (buf.drop (n1 + n2))
            (frameLength - n1 - n2) with
        | none => none
        | some tail => some ((id, value) :: tail)
termination_by frameLength
decreasing_by
  have hb : 1 ≤ n1 := by
    unfold decodeQuicInteger at h1
    repeat' split at h1
    all_goals (try simp_all)
    all_goals omega
  omega

/-- Content-length duplicate handling exercised over a call sequence:
feeds each value through onHeader under the content-length name,
reporting the conjunction of the per-call return values. -/
def feedContentLengths (s : HeaderDecodeInfo) :
    List String → HeaderDecodeInfo × Bool
  | [] => (s, true)
  | v :: rest =>
    let r := s.onHeader "content-length" v
    let r2 := feedContentLengths r.1 rest
    (r2.1, r.2 && r2.2)

theorem getQuicIntegerSize_eq_length {v : Nat} {e : List Nat}
    (he : encodeQuicInteger v = some e) : getQuicIntegerSize v = some e.length := by
  unfold encodeQuicInteger at he
  unfold getQuicIntegerSize
  by_cases h1 : v < 2 ^ 6
  · rw [if_pos h1] at he ⊢
    simp only [Option.some.injEq] at he
    simp [← he]
  · rw [if_neg h1] at he ⊢
    by_cases h2 : v < 2 ^ 14
    · rw [if_pos h2] at he ⊢
      simp only [Option.some.injEq] at he
      simp [← he]
    · rw [if_neg h2] at he ⊢
      by_cases h3 : v < 2 ^ 30
      · rw [if_pos h3] at he ⊢
        simp only [Option.some.injEq] at he
        simp [← he]
      · rw [if_neg h3] at he ⊢
        by_cases h4 : v < 2 ^ 62
        · rw [if_pos h4] at he ⊢
          simp only [Option.some.injEq] at he
          simp [← he]
        · rw [if_neg h4] at he
          simp at he

theorem encodeQuicInteger_isSome_iff {v : Nat} :
    (encodeQuicInteger v).isSome ↔ v < 2 ^ 62 := by
  unfold encodeQuicInteger
  split <;> (try split) <;> (try split) <;> (try split) <;> simp_all <;> omega

theorem encodeQuicInteger_length {v : Nat} {e : List Nat}
    (he : encodeQuicInteger v = some e) :
    e.length = 1 ∨ e.length = 2 ∨ e.length = 4 ∨ e.length = 8 := by
  unfold encodeQuicInteger at he
  split at he <;> (try split at he) <;> (try split at he) <;>
    (try split at he) <;> simp only [Option.some.injEq, reduceCtorEq] at he <;>
    simp [← he]

theorem decodeQuicInteger_bounds {buf : List Nat} {atMost v n : Nat}
    (h : decodeQuicInteger buf atMost = some (v, n)) :
    1 ≤ n ∧ n ≤ atMost ∧ n ≤ buf.length ∧ n ≤ 8 := by
  match buf with
  | [] => simp [decodeQuicInteger] at h
  | b :: rest =>
    simp only [decodeQuicInteger] at h
    split at h
    · split at h
      · simp at h
      · simp only [Option.some.injEq, Prod.mk.injEq] at h
        simp only [List.length_cons]
        omega
    · split at h
      · split at h
        · simp at h
        · match rest with
          | [] => simp at h
          | b2 :: r =>
            simp only [Option.some.injEq, Prod.mk.injEq] at h
            simp only [List.length_cons]
            omega
      · split at h
        · split at h
          · simp at h
          · match rest with
            | [] | [_] | [_, _] => simp at h
            | b2 :: b3 :: b4 :: r =>
              simp only [Option.some.injEq, Prod.mk.injEq] at h
              simp only [List.length_cons]
              omega
        · split at h
          · simp at h
          · match rest with
            | [] | [_] | [_, _] | [_, _, _] | [_, _, _, _]
            | [_, _, _, _, _] | [_, _, _, _, _, _] => simp at h
            | b2 :: b3 :: b4 :: b5 :: b6 :: b7 :: b8 :: r =>
              simp only [Option.some.injEq, Prod.mk.injEq] at h
              simp only [List.length_cons]
              omega

/-- Appending extra bytes past the point where atMost bytes are already
available does not change the result of a varint decode. -/
theorem decodeQuicInteger_append {buf : List Nat} (suffix : List Nat) {fl : Nat}
    (h : fl ≤ buf.length) :
    decodeQuicInteger (buf ++ suffix) fl = decodeQuicInteger buf fl := by
  match buf with
  | [] =>
    have hfl : fl = 0 := by simpa using h
    subst hfl
    simp only [List.nil_append]
    match suffix with
    | [] => rfl
    | b :: r =>
      simp only [decodeQuicInteger]
      split
      · rw [if_pos (by omega)]
      · split
        · rw [if_pos (by omega)]
        · split
          · rw [if_pos (by omega)]
          · rw [if_pos (by omega)]
  | b :: rest =>
    simp only [List.length_cons] at h
    simp only [List.cons_append, decodeQuicInteger]
    by_cases c0 : b % 256 / 64 = 0
    · rw [if_pos c0, if_pos c0]
    · rw [if_neg c0, if_neg c0]
      by_cases c1 : b % 256 / 64 = 1
      · rw [if_pos c1, if_pos c1]
        by_cases a1 : fl < 2
        · rw [if_pos a1, if_pos a1]
        · rw [if_neg a1, if_neg a1]
          rcases rest with - | ⟨b2, r⟩
          · simp only [List.length_nil] at h
            omega
          · rfl
      · rw [if_neg c1, if_neg c1]
        by_cases c2 : b % 256 / 64 = 2
        · rw [if_pos c2, if_pos c2]
          by_cases a2 : fl < 4
          · rw [if_pos a2, if_pos a2]
          · rw [if_neg a2, if_neg a2]
            rcases rest with - | ⟨b2, - | ⟨b3, - | ⟨b4, r⟩⟩⟩ <;>
              simp only [List.length_nil, List.length_cons] at h <;>
              first
              | omega
              | rfl
        · rw [if_neg c2, if_neg c2]
          by_cases a3 : fl < 8
          · rw [if_pos a3, if_pos a3]
          · rw [if_neg a3, if_neg a3]
            rcases rest with
              - | ⟨b2, - | ⟨b3, - | ⟨b4, - | ⟨b5, - | ⟨b6, - | ⟨b7,
                - | ⟨b8, r⟩⟩⟩⟩⟩⟩⟩ <;>
              simp only [List.length_nil, List.length_cons] at h <;>
              first
              | omega
              | rfl

/-- Decoding from the buffer truncated at atMost agrees with decoding
from the whole buffer, whenever atMost bytes are available. -/
theorem decodeQuicInteger_take {buf : List Nat} {fl : Nat}
    (h : fl ≤ buf.length) :
    decodeQuicInteger (buf.take fl) fl = decodeQuicInteger buf fl := by
  conv_rhs => rw [← List.take_append_drop fl buf]
  rw [decodeQuicInteger_append (buf.drop fl) (by simp [List.length_take]; omega)]

/-- Decoding the encoding recovers the value and the encoded length, for
any suffix and any atMost bound that admits the encoded length. -/
theorem decodeQuicInteger_encode {v : Nat} {e : List Nat} {atMost : Nat}
    (he : encodeQuicInteger v = some e) (ha : e.length ≤ atMost)
    (rest : List Nat) :
    decodeQuicInteger (e ++ rest) atMost = some (v, e.length) := by
  unfold encodeQuicInteger at he
  split at he
  · rename_i h1
    simp only [Option.some.injEq] at he
    subst he
    simp only [List.length_cons, List.length_nil] at *
    have e0 : v % 256 = v := by omega
    have e1 : v / 64 = 0 := by omega
    have e2 : v % 64 = v := by omega
    simp only [List.cons_append, List.nil_append, decodeQuicInteger, e0, e1, e2]
    norm_num
    omega
  · split at he
    · rename_i h1 h2
      simp only [Option.some.injEq] at he
      subst he
      simp only [List.length_cons, List.length_nil] at *
      have e0 : (64 + v / 2 ^ 8) % 256 = 64 + v / 2 ^ 8 := by omega
      have e1 : (64 + v / 2 ^ 8) / 64 = 1 := by omega
      have e2 : (64 + v / 2 ^ 8) % 64 = v / 2 ^ 8 := by omega
      simp only [List.cons_append, List.nil_append, decodeQuicInteger,
        e0, e1, e2]
      norm_num
      omega
    · split at he
      · rename_i h1 h2 h3
        simp only [Option.some.injEq] at he
        subst he
        simp only [List.length_cons, List.length_nil] at *
        have e0 : (128 + v / 2 ^ 24) % 256 = 128 + v / 2 ^ 24 := by omega
        have e1 : (128 + v / 2 ^ 24) / 64 = 2 := by omega
        have e2 : (128 + v / 2 ^ 24) % 64 = v / 2 ^ 24 := by omega
        simp only [List.cons_append, List.nil_append, decodeQuicInteger,
          e0, e1, e2]
        norm_num
        omega
      · split at he
        · rename_i h1 h2 h3 h4
          simp only [Option.some.injEq] at he
          subst he
          simp only [List.length_cons, List.length_nil] at *
          have e0 : (192 + v / 2 ^ 56) % 256 = 192 + v / 2 ^ 56 := by omega
          have e1 : (192 + v / 2 ^ 56) / 64 = 3 := by omega
          have e2 : (192 + v / 2 ^ 56) % 64 = v / 2 ^ 56 := by omega
          simp only [List.cons_append, List.nil_append, decodeQuicInteger,
            e0, e1, e2]
          norm_num
          omega
        · exact absurd he (by simp)

theorem PriorityElementType.ofCode_toCode (t : PriorityElementType) :
    PriorityElementType.ofCode t.toCode = t := by
  cases t <;> rfl

theorem PriorityElementType.toCode_lt_four (t : PriorityElementType) :
    t.toCode < 4 := by
  cases t <;> simp [PriorityElementType.toCode]

theorem sub64_of_le {a b : Nat} (hb : b ≤ a) (ha : a < 2 ^ 64)
    (hb64 : b < 2 ^ 64) : sub64 a b = a - b := by
  unfold sub64
  have : b % 2 ^ 64 = b := Nat.mod_eq_of_lt hb64
  rw [this]
  omega

theorem encodeQuicInteger_exists {v : Nat} (h : v < 2 ^ 62) :
    ∃ e, encodeQuicInteger v = some e := by
  have := encodeQuicInteger_isSome_iff (v := v)
  rw [Option.isSome_iff_exists] at this
  exact this.mpr h

theorem encodeQuicInteger_small {v : Nat} (h : v < 64) :
    encodeQuicInteger v = some [v] := by
  unfold encodeQuicInteger
  rw [if_pos (by omega)]

theorem encodeQuicInteger_length_le {v : Nat} {e : List Nat}
    (he : encodeQuicInteger v = some e) : e.length ≤ 8 := by
  rcases encodeQuicInteger_length he with h | h | h | h <;> omega

theorem getQuicIntegerSize_isSome_iff {v : Nat} :
    (getQuicIntegerSize v).isSome ↔ v < 2 ^ 62 := by
  unfold getQuicIntegerSize
  split <;> (try split) <;> (try split) <;> (try split) <;> simp_all <;> omega

theorem getQuicIntegerSize_none {v : Nat} (h : 2 ^ 62 ≤ v) :
    getQuicIntegerSize v = none := by
  unfold getQuicIntegerSize
  rw [if_neg (by omega), if_neg (by omega), if_neg (by omega),
    if_neg (by omega)]

theorem encodeQuicInteger_none {v : Nat} (h : 2 ^ 62 ≤ v) :
    encodeQuicInteger v = none := by
  unfold encodeQuicInteger
  rw [if_neg (by omega), if_neg (by omega), if_neg (by omega),
    if_neg (by omega)]

theorem encodePriorityFlags_lt (p : PriorityUpdate) :
    encodePriorityFlags p < 256 := by
  unfold encodePriorityFlags
  have h1 := PriorityElementType.toCode_lt_four p.prioritizedType
  have h2 := PriorityElementType.toCode_lt_four p.dependencyType
  unfold PRIORITIZED_TYPE_POS DEPENDENCY_TYPE_POS PRIORITY_EXCLUSIVE_MASK
  split <;> omega

theorem decodePriorityFlags_mk (a b : Nat) (ha : a < 4) (hb : b < 4)
    (e : Bool) :
    decodePriorityFlags (a * 2 ^ 6 + b * 2 ^ 4 + (if e = true then 8 else 0)) =
      some (.ofCode a, .ofCode b, e) := by
  simp only [decodePriorityFlags, PRIORITIZED_TYPE_POS, DEPENDENCY_TYPE_POS,
    PRIORITY_EXCLUSIVE_MASK, PRIORITY_EMPTY_POS]
  cases e
  · simp only [Bool.false_eq_true, if_false, Nat.add_zero]
    rw [if_neg (by omega)]
    have d1 : (a * 2 ^ 6 + b * 2 ^ 4) / 2 ^ 6 % 4 = a := by omega
    have d2 : (a * 2 ^ 6 + b * 2 ^ 4) / 2 ^ 4 % 4 = b := by omega
    have d3 : (a * 2 ^ 6 + b * 2 ^ 4) / 8 % 2 = 0 := by omega
    rw [d1, d2, d3]
    simp
  · simp only [if_true]
    rw [if_neg (by omega)]
    have d1 : (a * 2 ^ 6 + b * 2 ^ 4 + 8) / 2 ^ 6 % 4 = a := by omega
    have d2 : (a * 2 ^ 6 + b * 2 ^ 4 + 8) / 2 ^ 4 % 4 = b := by omega
    have d3 : (a * 2 ^ 6 + b * 2 ^ 4 + 8) / 8 % 2 = 1 := by omega
    rw [d1, d2, d3]
    simp

theorem decodePriorityFlags_encode (p : PriorityUpdate) :
    decodePriorityFlags (encodePriorityFlags p) =
      some (p.prioritizedType, p.dependencyType, p.exclusive) := by
  unfold encodePriorityFlags PRIORITIZED_TYPE_POS DEPENDENCY_TYPE_POS
    PRIORITY_EXCLUSIVE_MASK
  rw [show (6 : Nat) = 6 from rfl]
  rw [decodePriorityFlags_mk _ _ (PriorityElementType.toCode_lt_four _)
    (PriorityElementType.toCode_lt_four _) p.exclusive]
  rw [PriorityElementType.ofCode_toCode, PriorityElementType.ofCode_toCode]

theorem orPushIdMask_internal (v : Nat) :
    isInternalPushId (orPushIdMask v) = true := by
  unfold isInternalPushId orPushIdMask kPushIdMask
  have h1 : v % 2 ^ 63 < 2 ^ 63 := Nat.mod_lt _ (by norm_num)
  simp only [decide_eq_true_eq]
  omega

theorem orPushIdMask_clear {pushId : Nat} (hi : isInternalPushId pushId = true)
    (hlt : pushId < 2 ^ 64) : orPushIdMask (clearPushIdMask pushId) = pushId := by
  unfold isInternalPushId at hi
  unfold orPushIdMask clearPushIdMask kPushIdMask
  simp only [decide_eq_true_eq] at hi
  have h1 : pushId % 2 ^ 64 = pushId := Nat.mod_eq_of_lt hlt
  rw [h1] at hi
  omega

theorem clearPushIdMask_external (pushId : Nat) :
    isExternalPushId (clearPushIdMask pushId) = true := by
  unfold isExternalPushId isInternalPushId clearPushIdMask
  have h1 : pushId % 2 ^ 63 < 2 ^ 63 := Nat.mod_lt _ (by norm_num)
  simp only [Bool.not_eq_true', decide_eq_false_iff_not]
  omega

theorem knownSettingId_lt {id : Nat} (h : knownSettingId id = true) :
    id < 64 := by
  unfold knownSettingId SettingId.HEADER_TABLE_SIZE SettingId.NUM_PLACEHOLDERS
    SettingId.MAX_HEADER_LIST_SIZE SettingId.QPACK_BLOCKED_STREAMS at h
  simp only [decide_eq_true_eq] at h
  omega

/-- C4: a DATA frame whose declared header length is 0 is rejected by
parseData with HTTP_MALFORMED_FRAME_DATA, and the streaming codec
surfaces that error (connection-fatal, parser paused, onError fired)
as soon as payload bytes arrive for such a frame; a DATA frame with
positive length and its payload bytes available parses successfully
into exactly the declared number of cloned payload bytes. -/
theorem c4_data_zero_length (buf : List Nat) (t L : Nat)
    (allowed : Nat → Option ErrorCode) (s : CodecState)
    (h1 : 0 < L) (h2 : L ≤ buf.length)
    (hs1 : s.connError = none) (hs2 : s.parserPaused = false)
    (hs3 : s.frameState = .payloadStreaming)
    (hs4 : s.pendingDataFrameBytes = 0) (hb : buf ≠ []) :
    parseData buf ⟨t, 0⟩ = .error .HTTP_MALFORMED_FRAME_DATA ∧
    (parseData buf ⟨t, L⟩ = .ok (buf.take L) ∧ (buf.take L).length = L) ∧
    onFramedIngress allowed s buf =
      ({s with connError := some .HTTP_MALFORMED_FRAME_DATA,
               frameState := .headerType, parserPaused := true}, 0,
        [HqEvent.errorEvent .HTTP_MALFORMED_FRAME_DATA]) := by
  refine ⟨by simp [parseData], ⟨by simp [parseData]; omega,
    by simp [List.length_take]; omega⟩, ?_⟩
  obtain ⟨fs, ct, cl, pd, tp, ce, pp⟩ := s
  simp only at hs1 hs2 hs3 hs4
  subst hs1 hs2 hs3 hs4
  have hloop : ingressLoop allowed
      ⟨.payloadStreaming, ct, cl, 0, tp, none, false⟩ buf =
      (⟨.headerType, ct, cl, 0, tp, some .HTTP_MALFORMED_FRAME_DATA, false⟩,
        0, []) := by
    rw [ingressLoop]
    rw [dif_neg (by simp [hb])]
    simp only [Nat.zero_min, parseData, reduceIte]
    split <;> rename_i hsp <;> simp_all
  unfold onFramedIngress
  rw [if_neg (by simp)]
  rw [hloop]
  simp

/-- Witness for c4_data_zero_length at a concrete input. -/
theorem c4_data_zero_length_witness :
    parseData [7] ⟨0, 0⟩ = .error .HTTP_MALFORMED_FRAME_DATA ∧
    (parseData [7] ⟨0, 1⟩ = .ok [7] ∧ ([7] : List Nat).take 1 = [7]) := by
  have h := c4_data_zero_length [7] 0 1 (fun _ => none)
    { frameState := .payloadStreaming } (by norm_num) (by simp)
    rfl rfl rfl rfl (by simp)
  exact ⟨h.1, h.2.1.1, by simp⟩

/-- C7: every push id surfaced by parseCancelPush, parsePushPromise and
parseMaxPushId carries the kPushIdMask sentinel bit (is internal), and
the push id serializers clear the mask before varint-encoding, so the
value put on the wire is always external. -/
theorem c7_push_id_mask :
    (∀ buf hdr pushId, parseCancelPush buf hdr = .ok pushId →
        isInternalPushId pushId = true) ∧
    (∀ buf hdr r, parsePushPromise buf hdr = .ok r →
        isInternalPushId r.1 = true) ∧
    (∀ buf hdr pushId, parseMaxPushId buf hdr = .ok pushId →
        isInternalPushId pushId = true) ∧
    (∀ pushId, isExternalPushId (clearPushIdMask pushId) = true) ∧
    (∀ queue pushId, clearPushIdMask pushId < 2 ^ 62 →
      ∃ e, encodeQuicInteger (clearPushIdMask pushId) = some e ∧
        writeCancelPush queue pushId =
          (queue ++ FrameType.CANCEL_PUSH :: e.length :: e,
            .ok (2 + e.length)) ∧
        writeMaxPushId queue pushId =
          (queue ++ FrameType.MAX_PUSH_ID :: e.length :: e,
            .ok (2 + e.length))) ∧
    (∀ queue pushId data1 lengthBytes e, clearPushIdMask pushId < 2 ^ 62 →
      encodeQuicInteger (clearPushIdMask pushId) = some e →
      encodeQuicInteger (e.length + data1.length) = some lengthBytes →
      writePushPromise queue pushId data1 =
        (queue ++ FrameType.PUSH_PROMISE :: (lengthBytes ++ (e ++ data1)),
          .ok (1 + lengthBytes.length + (e.length + data1.length)))) := by
  refine ⟨?_, ?_, ?_, ?_, ?_, ?_⟩
  · intro buf hdr pushId h
    unfold parseCancelPush at h
    split at h
    · simp at h
    · split at h
      · simp at h
      · simp only [Except.ok.injEq] at h
        rw [← h]
        exact orPushIdMask_internal _
  · intro buf hdr r h
    unfold parsePushPromise at h
    split at h
    · simp at h
    · simp only [Except.ok.injEq] at h
      rw [← h]
      exact orPushIdMask_internal _
  · intro buf hdr pushId h
    unfold parseMaxPushId at h
    split at h
    · simp at h
    · split at h
      · simp at h
      · simp only [Except.ok.injEq] at h
        rw [← h]
        exact orPushIdMask_internal _
  · exact clearPushIdMask_external
  · intro queue pushId hlt
    obtain ⟨e, he⟩ := encodeQuicInteger_exists hlt
    refine ⟨e, he, ?_, ?_⟩
    · simp only [writeCancelPush]
      rw [getQuicIntegerSize_eq_length he]
      simp only [writeSimpleFrame, writeFrameHeader]
      rw [he]
      simp only [Option.getD_some, List.length_nil]
      rw [encodeQuicInteger_small (by decide),
        encodeQuicInteger_small
          (show e.length < 64 by have := encodeQuicInteger_length_le he; omega)]
      simp [List.append_assoc, FrameType.CANCEL_PUSH]
    · simp only [writeMaxPushId]
      rw [getQuicIntegerSize_eq_length he]
      simp only [writeSimpleFrame, writeFrameHeader]
      rw [he]
      simp only [Option.getD_some, List.length_nil]
      rw [encodeQuicInteger_small (by decide),
        encodeQuicInteger_small
          (show e.length < 64 by have := encodeQuicInteger_length_le he; omega)]
      simp [List.append_assoc, FrameType.MAX_PUSH_ID]
  · intro queue pushId data1 lengthBytes e hlt he hlb
    simp only [writePushPromise]
    rw [getQuicIntegerSize_eq_length he]
    simp only [writeFrameHeader]
    rw [encodeQuicInteger_small (by decide),
      hlb, he]
    simp [List.append_assoc, FrameType.PUSH_PROMISE]

/-- Witness for c7_push_id_mask at concrete inputs. -/
theorem c7_push_id_mask_witness :
    isInternalPushId (2 ^ 63 + 1) = true ∧
    isExternalPushId (clearPushIdMask (2 ^ 63 + 1)) = true ∧
    writeCancelPush [] (2 ^ 63 + 1) =
      ([FrameType.CANCEL_PUSH, 1, 1], .ok 3) := by
  have h := c7_push_id_mask
  have h1 : parseCancelPush [1] ⟨FrameType.CANCEL_PUSH, 1⟩ =
      .ok (2 ^ 63 + 1) := by
    unfold parseCancelPush
    simp [decodeQuicInteger, orPushIdMask, kPushIdMask]
  have h5 := h.2.2.2.2.1 [] (2 ^ 63 + 1)
    (by unfold clearPushIdMask; norm_num)
  obtain ⟨e, he, hc, -⟩ := h5
  have hee : e = [1] := by
    have : clearPushIdMask (2 ^ 63 + 1) = 1 := by unfold clearPushIdMask; norm_num
    rw [this] at he
    rw [encodeQuicInteger_small (by norm_num)] at he
    simpa using he.symm
  subst hee
  exact ⟨h.1 [1] ⟨FrameType.CANCEL_PUSH, 1⟩ _ h1, h.2.2.2.1 _, by simpa using hc⟩

/-- C6: parseSettings decodes (id, value) varint pairs until the
declared length is exhausted and reports exactly the known pairs in
wire order, consuming but not reporting unknown ids, and returns
HTTP_MALFORMED_FRAME_SETTINGS exactly when an id or value varint
cannot be decoded within the remaining length. -/
theorem c6_settings_parse (buf : List Nat) (frameLength : Nat) :
    parseSettings buf frameLength =
      match decodeAllSettingPairs buf frameLength with
      | none => .error .HTTP_MALFORMED_FRAME_SETTINGS
      | some all => .ok (all.filter (fun pr => knownSettingId pr.1)) := by
  refine parseSettings.induct (motive := fun b f => parseSettings b f =
      match decodeAllSettingPairs b f with
      | none => .error .HTTP_MALFORMED_FRAME_SETTINGS
      | some all => .ok (all.filter (fun pr => knownSettingId pr.1)))
    ?_ ?_ ?_ ?_ ?_ buf frameLength
  · intro buf
    rw [parseSettings, decodeAllSettingPairs]
    simp
  · intro buf fl h0 hdec
    have hL : parseSettings buf fl =
        .error .HTTP_MALFORMED_FRAME_SETTINGS := by
      rw [parseSettings]
      simp only [if_neg h0]
      split <;> simp_all
    have hR : decodeAllSettingPairs buf fl = none := by
      rw [decodeAllSettingPairs]
      simp only [if_neg h0]
      split <;> simp_all
    rw [hL, hR]
  · intro buf fl h0 settingId n1 hdec e hval
    have hv2 : decodeQuicInteger (buf.drop n1) (fl - n1) = none ∧
        e = .HTTP_MALFORMED_FRAME_SETTINGS := by
      unfold decodeSettingValue at hval
      split at hval
      · simp_all
      · split at hval <;> simp_all
    have hL : parseSettings buf fl = .error e := by
      rw [parseSettings]
      simp only [if_neg h0]
      split <;> rename_i hq
      · simp_all
      · rename_i id1 m1
        rw [hdec] at hq
        simp only [Option.some.injEq, Prod.mk.injEq] at hq
        obtain ⟨rfl, rfl⟩ := hq
        rw [hval]
    have hR : decodeAllSettingPairs buf fl = none := by
      rw [decodeAllSettingPairs]
      simp only [if_neg h0]
      split <;> rename_i hq
      · rfl
      · rename_i id1 m1
        rw [hdec] at hq
        simp only [Option.some.injEq, Prod.mk.injEq] at hq
        obtain ⟨rfl, rfl⟩ := hq
        rw [hv2.1]
    rw [hL, hR, hv2.2]
  · intro buf fl h0 settingId n1 hdec optValue n2 hval e htail ih
    obtain ⟨v, hv2, hov⟩ : ∃ v,
        decodeQuicInteger (buf.drop n1) (fl - n1) = some (v, n2) ∧
          optValue = (if knownSettingId settingId then some v else none) := by
      unfold decodeSettingValue at hval
      split at hval
      · simp_all
      · rename_i v m hq
        have hm : m = n2 := by split at hval <;> simp_all
        subst hm
        refine ⟨v, hq, ?_⟩
        split at hval <;> rename_i hk
        · rw [if_pos hk]
          simp_all
        · rw [if_neg hk]
          simp_all
    have hRn : decodeAllSettingPairs (buf.drop (n1 + n2)) (fl - n1 - n2) =
        none ∧ e = .HTTP_MALFORMED_FRAME_SETTINGS := by
      rw [htail] at ih
      split at ih <;> simp_all
    have hL : parseSettings buf fl = .error e := by
      rw [parseSettings]
      simp only [if_neg h0]
      split <;> rename_i hq
      · simp_all
      · rename_i id1 m1
        rw [hdec] at hq
        simp only [Option.some.injEq, Prod.mk.injEq] at hq
        obtain ⟨rfl, rfl⟩ := hq
        rw [hval]
        simp [htail]
    have hR : decodeAllSettingPairs buf fl = none := by
      rw [decodeAllSettingPairs]
      simp only [if_neg h0]
      split <;> rename_i hq
      · rfl
      · rename_i id1 m1
        rw [hdec] at hq
        simp only [Option.some.injEq, Prod.mk.injEq] at hq
        obtain ⟨rfl, rfl⟩ := hq
        rw [hv2]
        simp [hRn.1]
    rw [hL, hR, hRn.2]
  · intro buf fl h0 settingId n1 hdec optValue n2 hval tail htail ih
    obtain ⟨v, hv2, hov⟩ : ∃ v,
        decodeQuicInteger (buf.drop n1) (fl - n1) = some (v, n2) ∧
          optValue = (if knownSettingId settingId then some v else none) := by
      unfold decodeSettingValue at hval
      split at hval
      · simp_all
      · rename_i v m hq
        have hm : m = n2 := by split at hval <;> simp_all
        subst hm
        refine ⟨v, hq, ?_⟩
        split at hval <;> rename_i hk
        · rw [if_pos hk]
          simp_all
        · rw [if_neg hk]
          simp_all
    obtain ⟨all, hall, hfil⟩ : ∃ all,
        decodeAllSettingPairs (buf.drop (n1 + n2)) (fl - n1 - n2) =
          some all ∧ tail = all.filter (fun pr => knownSettingId pr.1) := by
      rw [htail] at ih
      split at ih <;> simp_all
    have hR : decodeAllSettingPairs buf fl = some ((settingId, v) :: all) := by
      rw [decodeAllSettingPairs]
      simp only [if_neg h0]
      split <;> rename_i hq
      · simp_all
      · rename_i id1 m1
        rw [hdec] at hq
        simp only [Option.some.injEq, Prod.mk.injEq] at hq
        obtain ⟨rfl, rfl⟩ := hq
        rw [hv2]
        simp [hall]
    by_cases hk : knownSettingId settingId = true
    · rw [if_pos hk] at hov
      subst hov
      have hL : parseSettings buf fl = .ok ((settingId, v) :: tail) := by
        rw [parseSettings]
        simp only [if_neg h0]
        split <;> rename_i hq
        · simp_all
        · rename_i id1 m1
          rw [hdec] at hq
          simp only [Option.some.injEq, Prod.mk.injEq] at hq
          obtain ⟨rfl, rfl⟩ := hq
          rw [hval]
          simp [htail]
      rw [hL, hR]
      simp [List.filter_cons, hk, hfil]
    · rw [if_neg hk] at hov
      subst hov
      have hL : parseSettings buf fl = .ok tail := by
        rw [parseSettings]
        simp only [if_neg h0]
        split <;> rename_i hq
        · simp_all
        · rename_i id1 m1
          rw [hdec] at hq
          simp only [Option.some.injEq, Prod.mk.injEq] at hq
          obtain ⟨rfl, rfl⟩ := hq
          rw [hval]
          simp [htail]
      rw [hL, hR]
      simp only [Bool.not_eq_true] at hk
      simp [List.filter_cons, hk, hfil]

theorem validateHeaderValue_of_parseU32 {v : String} {n : Nat}
    (h : parseU32 v = some n) : validateHeaderValue v = true := by
  unfold parseU32 at h
  split at h
  · simp at h
  · split at h
    · rename_i hne hcond
      unfold validateHeaderValue
      rw [List.all_eq_true]
      intro c hc
      have hx := hcond.1
      rw [List.all_eq_true] at hx
      have hd := hx c hc
      simp only [isDigitChar, decide_eq_true_eq] at hd
      have h1 : (decide (32 ≤ c.toNat) && decide (c.toNat ≤ 126)) = true := by
        simp only [Bool.and_eq_true, decide_eq_true_eq]
        omega
      simp [h1]
    · simp at h

theorem getHeaderCode_contentLength :
    getHeaderCode "content-length" = HeaderCode.CONTENT_LENGTH := by decide

/-- The content-length step of onHeader from a clean state whose
recorded content length, if any, agrees with the parsed value. -/
theorem onHeader_contentLength_ok (s : HeaderDecodeInfo) (v : String) (n : Nat)
    (hde : s.decodeError = false) (hpe : s.parsingError = "")
    (hv : parseU32 v = some n)
    (hcl : s.contentLength = none ∨ s.contentLength = some n) :
    s.onHeader "content-length" v =
      ({s with contentLength := some n, regularHeaderSeen := true,
               headers := s.headers ++ [("content-length", v)]}, true) := by
  simp only [HeaderDecodeInfo.onHeader]
  rw [if_neg (by simp [hde, hpe])]
  rw [if_neg (by decide : ¬(startsWithColon "content-length" = true))]
  rw [getHeaderCode_contentLength]
  rw [if_neg (by decide :
    ¬(HeaderCode.CONTENT_LENGTH = HeaderCode.CONNECTION))]
  rw [if_pos rfl]
  rw [hv]
  have hvv := validateHeaderValue_of_parseU32 hv
  rcases hcl with hcl | hcl
  · rw [hcl]
    simp only [Option.getD_some, HeaderDecodeInfo.addRegular]
    rw [if_neg (by simp [hvv])]
  · rw [hcl]
    simp only [Option.getD_some]
    rw [if_neg (by omega : ¬(n ≠ n))]
    simp only [HeaderDecodeInfo.addRegular]
    rw [if_neg (by simp [hvv])]

/-- C8: over a sequence of content-length onHeader calls whose values
all parse to the same number, every field is accepted and no parsing
error is recorded; a call whose parsed value differs from the recorded
content length returns false and sets the parsing error to Multiple
content-length headers. -/
theorem c8_content_length_agreement :
    (∀ (s : HeaderDecodeInfo) (vs : List String) (n : Nat),
      s.decodeError = false → s.parsingError = "" →
      (s.contentLength = none ∨ s.contentLength = some n) →
      (∀ v ∈ vs, parseU32 v = some n) →
      (feedContentLengths s vs).2 = true ∧
        (feedContentLengths s vs).1.parsingError = "") ∧
    (∀ (s : HeaderDecodeInfo) (v : String) (n m : Nat),
      s.decodeError = false → s.parsingError = "" →
      s.contentLength = some n → parseU32 v = some m → m ≠ n →
      s.onHeader "content-length" v =
        ({s with regularHeaderSeen := true,
                 parsingError := "Multiple content-length headers"}, false)) := by
  constructor
  · intro s vs
    induction vs generalizing s with
    | nil =>
      intro n hde hpe hcl hvs
      exact ⟨rfl, hpe⟩
    | cons v rest ih =>
      intro n hde hpe hcl hvs
      have hstep := onHeader_contentLength_ok s v n hde hpe
        (hvs v (by simp)) hcl
      simp only [feedContentLengths, hstep]
      have hrec := ih {s with contentLength := some n, regularHeaderSeen := true, headers := s.headers ++ [("content-length", v)]} n hde hpe (Or.inr rfl) (fun w hw => hvs w (by simp [hw]))
      simp [hrec.1, hrec.2]
  · intro s v n m hde hpe hcl hv hne
    simp only [HeaderDecodeInfo.onHeader]
    rw [if_neg (by simp [hde, hpe])]
    rw [if_neg (by decide : ¬(startsWithColon "content-length" = true))]
    rw [getHeaderCode_contentLength]
    rw [if_neg (by decide :
      ¬(HeaderCode.CONTENT_LENGTH = HeaderCode.CONNECTION))]
    rw [if_pos rfl]
    rw [hv, hcl]
    simp only [Option.getD_some]
    rw [if_pos (by omega : (n ≠ m))]

/-- Witness for c8_content_length_agreement at concrete inputs. -/
theorem c8_content_length_agreement_witness :
    (feedContentLengths {} ["42", "42"]).2 = true ∧
    (feedContentLengths {} ["42", "42"]).1.parsingError = "" ∧
    (HeaderDecodeInfo.onHeader
        {contentLength := some 42} "content-length" "7").2 = false ∧
    (HeaderDecodeInfo.onHeader
        {contentLength := some 42} "content-length" "7").1.parsingError =
      "Multiple content-length headers" := by
  have h1 := c8_content_length_agreement.1 {} ["42", "42"] 42 rfl rfl
    (Or.inl rfl) (by decide)
  have h2 := c8_content_length_agreement.2 {contentLength := some 42} "7" 42 7
    rfl rfl rfl (by decide) (by decide)
  exact ⟨h1.1, h1.2, by rw [h2], by rw [h2]⟩

/-- C9 counterexample: a Content-Length value that does not parse as a
u32 is recorded as 0, so after a previously recorded different content
length the header is rejected with Multiple content-length headers,
even though it passes the generic header-value validation; the claim
that such a header is always accepted is therefore false. -/
theorem c9_counterexample :
    parseU32 "abc" = none ∧ validateHeaderValue "abc" = true ∧
    ((HeaderDecodeInfo.onHeader {} "content-length" "42").1.onHeader
        "content-length" "abc").2 = false ∧
    ((HeaderDecodeInfo.onHeader {} "content-length" "42").1.onHeader
        "content-length" "abc").1.parsingError =
      "Multiple content-length headers" := by decide

/-- C9 amended: when onHeader receives a Content-Length value that does
not parse as a u32, no parsing error is raised for the parse failure
itself: the content length is silently recorded as 0 and the header is
accepted, provided it passes the generic header-value validation and no
different content length was previously recorded; a previously recorded
nonzero content length makes the field count as a differing duplicate
and is rejected with Multiple content-length headers. -/
theorem c9_unparsed_content_length (s : HeaderDecodeInfo) (v : String)
    (n : Nat) (hde : s.decodeError = false) (hpe : s.parsingError = "")
    (hv : parseU32 v = none) (hvv : validateHeaderValue v = true) :
    ((s.contentLength = none ∨ s.contentLength = some 0) →
      s.onHeader "content-length" v =
        ({s with contentLength := some 0, regularHeaderSeen := true,
                 headers := s.headers ++ [("content-length", v)]}, true)) ∧
    (s.contentLength = some n → n ≠ 0 →
      s.onHeader "content-length" v =
        ({s with regularHeaderSeen := true,
                 parsingError := "Multiple content-length headers"}, false)) := by
  constructor
  · intro hcl
    simp only [HeaderDecodeInfo.onHeader]
    rw [if_neg (by simp [hde, hpe])]
    rw [if_neg (by decide : ¬(startsWithColon "content-length" = true))]
    rw [getHeaderCode_contentLength]
    rw [if_neg (by decide :
      ¬(HeaderCode.CONTENT_LENGTH = HeaderCode.CONNECTION))]
    rw [if_pos rfl]
    rw [hv]
    rcases hcl with hcl | hcl
    · rw [hcl]
      simp only [Option.getD_none, HeaderDecodeInfo.addRegular]
      rw [if_neg (by simp [hvv])]
    · rw [hcl]
      simp only [Option.getD_none]
      rw [if_neg (by omega : ¬((0 : Nat) ≠ 0))]
      simp only [HeaderDecodeInfo.addRegular]
      rw [if_neg (by simp [hvv])]
  · intro hcl hne
    simp only [HeaderDecodeInfo.onHeader]
    rw [if_neg (by simp [hde, hpe])]
    rw [if_neg (by decide : ¬(startsWithColon "content-length" = true))]
    rw [getHeaderCode_contentLength]
    rw [if_neg (by decide :
      ¬(HeaderCode.CONTENT_LENGTH = HeaderCode.CONNECTION))]
    rw [if_pos rfl]
    rw [hv, hcl]
    simp only [Option.getD_none]
    rw [if_pos (by omega : (n ≠ 0))]

/-- Witness for c9_unparsed_content_length at a concrete input. -/
theorem c9_unparsed_content_length_witness :
    (HeaderDecodeInfo.onHeader {} "content-length" "abc").2 = true ∧
    (HeaderDecodeInfo.onHeader {} "content-length" "abc").1.contentLength =
      some 0 := by
  have h := (c9_unparsed_content_length {} "abc" 0 rfl rfl (by decide)
    (by decide)).1 (Or.inl rfl)
  rw [h]
  exact ⟨rfl, rfl⟩

theorem writeData_too_large (queue data1 : List Nat)
    (h : 2 ^ 62 ≤ data1.length) :
    writeData queue data1 = (queue ++ [FrameType.DATA], .error ()) := by
  simp only [writeData, writeSimpleFrame, writeFrameHeader]
  rw [encodeQuicInteger_small (by decide : FrameType.DATA < 64),
    encodeQuicInteger_none h]

theorem writeHeaders_too_large (queue data1 : List Nat)
    (h : 2 ^ 62 ≤ data1.length) :
    writeHeaders queue data1 = (queue ++ [FrameType.HEADERS], .error ()) := by
  simp only [writeHeaders, writeSimpleFrame, writeFrameHeader]
  rw [encodeQuicInteger_small (by decide : FrameType.HEADERS < 64),
    encodeQuicInteger_none h]

/-- C1 counterexample: writeData on a payload of 2 ^ 62 bytes fails
with the varint TooLarge error, but the output queue is not left
unchanged: the DATA frame type varint has already been appended, so
the claim that the queue is left exactly as before is false. -/
theorem c1_counterexample :
    writeData [] (List.replicate (2 ^ 62) 0) =
      ([FrameType.DATA], .error ()) ∧
    ([FrameType.DATA] : List Nat) ≠ [] := by
  constructor
  · have hlen : (List.replicate (2 ^ 62) (0 : Nat)).length = 2 ^ 62 :=
      List.length_replicate _ _
    have h := writeData_too_large [] (List.replicate (2 ^ 62) 0)
      (le_of_eq hlen.symm)
    rw [h]
    simp
  · simp

/-- C1 amended: every framer write operation whose varint encoding
hits a value of at least 2 ^ 62 returns an error; the output queue is
left unchanged, except that when the oversized varint is the frame
payload length itself, the frame type varint has already been appended
to the queue. -/
theorem c1_framer_error_queue (queue data1 : List Nat)
    (p : PriorityUpdate) (settings : List (Nat × Nat))
    (pushId lastStreamId sz : Nat) :
    (2 ^ 62 ≤ data1.length →
      writeData queue data1 = (queue ++ [FrameType.DATA], .error ()) ∧
      writeHeaders queue data1 = (queue ++ [FrameType.HEADERS], .error ())) ∧
    (2 ^ 62 ≤ p.prioritizedElementId →
      writePriority queue p = (queue, .error ())) ∧
    (p.prioritizedElementId < 2 ^ 62 →
      p.dependencyType ≠ PriorityElementType.TREE_ROOT →
      2 ^ 62 ≤ p.elementDependencyId →
      writePriority queue p = (queue, .error ())) ∧
    (2 ^ 62 ≤ clearPushIdMask pushId →
      writeCancelPush queue pushId = (queue, .error ()) ∧
      writeMaxPushId queue pushId = (queue, .error ())) ∧
    (settingsPayloadSize settings = none →
      writeSettings queue settings = (queue, .error ())) ∧
    (settingsPayloadSize settings = some sz → 2 ^ 62 ≤ sz →
      writeSettings queue settings =
        (queue ++ [FrameType.SETTINGS], .error ())) ∧
    (2 ^ 62 ≤ clearPushIdMask pushId →
      writePushPromise queue pushId data1 = (queue, .error ())) ∧
    (clearPushIdMask pushId < 2 ^ 62 →
      2 ^ 62 ≤ (getQuicIntegerSize (clearPushIdMask pushId)).getD 0
        + data1.length →
      writePushPromise queue pushId data1 =
        (queue ++ [FrameType.PUSH_PROMISE], .error ())) ∧
    (2 ^ 62 ≤ lastStreamId →
      writeGoaway queue lastStreamId = (queue, .error ())) := by
  refine ⟨?_, ?_, ?_, ?_, ?_, ?_, ?_, ?_, ?_⟩
  · intro h
    exact ⟨writeData_too_large queue data1 h,
      writeHeaders_too_large queue data1 h⟩
  · intro h
    simp only [writePriority]
    rw [getQuicIntegerSize_none h]
  · intro h1 h2 h3
    simp only [writePriority]
    obtain ⟨sz1, hsz1⟩ :=
      Option.isSome_iff_exists.mp (getQuicIntegerSize_isSome_iff.mpr h1)
    rw [hsz1]
    dsimp only
    rw [getQuicIntegerSize_none h3]
    rw [if_pos h2]
  · intro h
    constructor
    · simp only [writeCancelPush]
      rw [getQuicIntegerSize_none h]
    · simp only [writeMaxPushId]
      rw [getQuicIntegerSize_none h]
  · intro h
    simp only [writeSettings]
    rw [h]
  · intro h1 h2
    simp only [writeSettings]
    rw [h1]
    dsimp only
    simp only [writeFrameHeader]
    rw [encodeQuicInteger_small (by decide : FrameType.SETTINGS < 64)]
    rw [encodeQuicInteger_none h2]
  · intro h
    simp only [writePushPromise]
    rw [getQuicIntegerSize_none h]
  · intro h1 h2
    simp only [writePushPromise]
    obtain ⟨sz1, hsz1⟩ :=
      Option.isSome_iff_exists.mp (getQuicIntegerSize_isSome_iff.mpr h1)
    rw [hsz1]
    dsimp only
    simp only [writeFrameHeader]
    rw [encodeQuicInteger_small (by decide : FrameType.PUSH_PROMISE < 64)]
    rw [hsz1] at h2
    simp only [Option.getD_some] at h2
    rw [encodeQuicInteger_none h2]
  · intro h
    simp only [writeGoaway]
    rw [getQuicIntegerSize_none h]

/-- Witness for c1_framer_error_queue at concrete inputs. -/
theorem c1_framer_error_queue_witness :
    writeGoaway [] (2 ^ 62) = ([], .error ()) ∧
    writeData [] (List.replicate (2 ^ 62) 0) =
      ([FrameType.DATA], .error ()) := by
  have h := c1_framer_error_queue [] (List.replicate (2 ^ 62) 0) {} [] 0
    (2 ^ 62) 0
  refine ⟨h.2.2.2.2.2.2.2.2 (by norm_num), ?_⟩
  have h2 := (h.1 (le_of_eq (List.length_replicate _ _).symm)).1
  rw [List.nil_append] at h2
  exact h2

theorem ingressLoop_stop (a : Nat → Option ErrorCode) (s : CodecState)
    (buf : List Nat)
    (hstop : s.connError ≠ none ∨ buf = [] ∨ s.parserPaused = true) :
    ingressLoop a s buf = (s, 0, []) := by
  rw [ingressLoop, dif_pos hstop]

theorem ingressLoop_headerType_short (a : Nat → Option ErrorCode)
    (s : CodecState) (buf : List Nat)
    (hstop : ¬(s.connError ≠ none ∨ buf = [] ∨ s.parserPaused = true))
    (hfs : s.frameState = .headerType)
    (hdec : decodeQuicInteger buf 8 = none) :
    ingressLoop a s buf = (s, 0, []) := by
  rw [ingressLoop, dif_neg hstop]
  split <;> rename_i heq <;> rw [hfs] at heq
  · split <;> rename_i hq
    · rfl
    · rw [hdec] at hq
      exact absurd hq (by simp)
  · exact absurd heq (by decide)
  · exact absurd heq (by decide)
  · exact absurd heq (by decide)
  · exact absurd heq (by decide)

theorem ingressLoop_headerType_notAllowed (a : Nat → Option ErrorCode)
    (s : CodecState) (buf : List Nat) (t n : Nat) (err : ErrorCode)
    (hstop : ¬(s.connError ≠ none ∨ buf = [] ∨ s.parserPaused = true))
    (hfs : s.frameState = .headerType)
    (hdec : decodeQuicInteger buf 8 = some (t, n))
    (hall : a t = some err) :
    ingressLoop a s buf =
      ({s with curType := t, connError := some err}, 0, []) := by
  rw [ingressLoop, dif_neg hstop]
  split <;> rename_i heq <;> rw [hfs] at heq
  · split <;> rename_i hq
    · rw [hdec] at hq
      exact absurd hq (by simp)
    · rw [hdec] at hq
      simp only [Option.some.injEq, Prod.mk.injEq] at hq
      obtain ⟨rfl, rfl⟩ := hq
      rw [hall]
  · exact absurd heq (by decide)
  · exact absurd heq (by decide)
  · exact absurd heq (by decide)
  · exact absurd heq (by decide)

theorem ingressLoop_headerType_step (a : Nat → Option ErrorCode)
    (s : CodecState) (buf : List Nat) (t n : Nat)
    (hstop : ¬(s.connError ≠ none ∨ buf = [] ∨ s.parserPaused = true))
    (hfs : s.frameState = .headerType)
    (hdec : decodeQuicInteger buf 8 = some (t, n))
    (hall : a t = none) :
    ingressLoop a s buf =
      ((ingressLoop a (nextHeaderLength s t n) (buf.drop n)).1,
        n + (ingressLoop a (nextHeaderLength s t n) (buf.drop n)).2.1,
        (ingressLoop a (nextHeaderLength s t n) (buf.drop n)).2.2) := by
  conv_lhs => rw [ingressLoop]
  rw [dif_neg hstop]
  split <;> rename_i heq <;> rw [hfs] at heq
  · split <;> rename_i hq
    · rw [hdec] at hq
      exact absurd hq (by simp)
    · rw [hdec] at hq
      simp only [Option.some.injEq, Prod.mk.injEq] at hq
      obtain ⟨rfl, rfl⟩ := hq
      rw [hall]
      rfl
  · exact absurd heq (by decide)
  · exact absurd heq (by decide)
  · exact absurd heq (by decide)
  · exact absurd heq (by decide)

theorem ingressLoop_headerLength_short (a : Nat → Option ErrorCode)
    (s : CodecState) (buf : List Nat)
    (hstop : ¬(s.connError ≠ none ∨ buf = [] ∨ s.parserPaused = true))
    (hfs : s.frameState = .headerLength)
    (hdec : decodeQuicInteger buf 8 = none) :
    ingressLoop a s buf = (s, 0, []) := by
  rw [ingressLoop, dif_neg hstop]
  split <;> rename_i heq <;> rw [hfs] at heq
  · exact absurd heq (by decide)
  · split <;> rename_i hq
    · rfl
    · rw [hdec] at hq
      exact absurd hq (by simp)
  · exact absurd heq (by decide)
  · exact absurd heq (by decide)
  · exact absurd heq (by decide)

theorem ingressLoop_headerLength_step (a : Nat → Option ErrorCode)
    (s : CodecState) (buf : List Nat) (len n : Nat)
    (hstop : ¬(s.connError ≠ none ∨ buf = [] ∨ s.parserPaused = true))
    (hfs : s.frameState = .headerLength)
    (hdec : decodeQuicInteger buf 8 = some (len, n)) :
    ingressLoop a s buf =
      ((ingressLoop a (nextPayload s len n) (buf.drop n)).1,
        n + (ingressLoop a (nextPayload s len n) (buf.drop n)).2.1,
        HqEvent.frameHeader len s.curType ::
          (ingressLoop a (nextPayload s len n) (buf.drop n)).2.2) := by
  conv_lhs => rw [ingressLoop]
  rw [dif_neg hstop]
  split <;> rename_i heq <;> rw [hfs] at heq
  · exact absurd heq (by decide)
  · split <;> rename_i hq
    · rw [hdec] at hq
      exact absurd hq (by simp)
    · rw [hdec] at hq
      simp only [Option.some.injEq, Prod.mk.injEq] at hq
      obtain ⟨rfl, rfl⟩ := hq
      rfl
  · exact absurd heq (by decide)
  · exact absurd heq (by decide)
  · exact absurd heq (by decide)

theorem ingressLoop_payload_short (a : Nat → Option ErrorCode)
    (s : CodecState) (buf : List Nat)
    (hstop : ¬(s.connError ≠ none ∨ buf = [] ∨ s.parserPaused = true))
    (hfs : s.frameState = .payload) (hlen : buf.length < s.curLength) :
    ingressLoop a s buf = (s, 0, []) := by
  rw [ingressLoop, dif_neg hstop]
  split <;> rename_i heq <;> rw [hfs] at heq
  · exact absurd heq (by decide)
  · exact absurd heq (by decide)
  · rw [dif_pos hlen]
  · exact absurd heq (by decide)
  · exact absurd heq (by decide)

theorem ingressLoop_payload_error (a : Nat → Option ErrorCode)
    (s : CodecState) (buf : List Nat) (err : ErrorCode)
    (hstop : ¬(s.connError ≠ none ∨ buf = [] ∨ s.parserPaused = true))
    (hfs : s.frameState = .payload) (hlen : ¬buf.length < s.curLength)
    (hperr : parseFrameErr s.curType s.curLength buf = some err) :
    ingressLoop a s buf =
      ({s with connError := some err, frameState := .headerType,
               totalBytesParsed := s.totalBytesParsed + s.curLength},
        s.curLength, []) := by
  rw [ingressLoop, dif_neg hstop]
  split <;> rename_i heq <;> rw [hfs] at heq
  · exact absurd heq (by decide)
  · exact absurd heq (by decide)
  · rw [dif_neg hlen, hperr]
  · exact absurd heq (by decide)
  · exact absurd heq (by decide)

theorem ingressLoop_payload_step (a : Nat → Option ErrorCode)
    (s : CodecState) (buf : List Nat)
    (hstop : ¬(s.connError ≠ none ∨ buf = [] ∨ s.parserPaused = true))
    (hfs : s.frameState = .payload) (hlen : ¬buf.length < s.curLength)
    (hperr : parseFrameErr s.curType s.curLength buf = none) :
    ingressLoop a s buf =
      ((ingressLoop a (nextAfterPayload s) (buf.drop s.curLength)).1,
        s.curLength +
          (ingressLoop a (nextAfterPayload s) (buf.drop s.curLength)).2.1,
        (if isKnownFrameType s.curType then [HqEvent.framePayload s.curType]
          else []) ++
          (ingressLoop a (nextAfterPayload s) (buf.drop s.curLength)).2.2) := by
  conv_lhs => rw [ingressLoop]
  rw [dif_neg hstop]
  split <;> rename_i heq <;> rw [hfs] at heq
  · exact absurd heq (by decide)
  · exact absurd heq (by decide)
  · rw [dif_neg hlen, hperr]
    rfl
  · exact absurd heq (by decide)
  · exact absurd heq (by decide)

theorem ingressLoop_streaming_error (a : Nat → Option ErrorCode)
    (s : CodecState) (buf : List Nat) (e : ErrorCode)
    (hstop : ¬(s.connError ≠ none ∨ buf = [] ∨ s.parserPaused = true))
    (hfs : s.frameState = .payloadStreaming)
    (herr : parseData buf
      ⟨FrameType.DATA, min s.pendingDataFrameBytes buf.length⟩ =
      .error e) :
    ingressLoop a s buf =
      ({nextStreaming s (min s.pendingDataFrameBytes buf.length) with
          connError := some e},
        min s.pendingDataFrameBytes buf.length, []) := by
  rw [ingressLoop, dif_neg hstop]
  split <;> rename_i heq <;> rw [hfs] at heq
  · exact absurd heq (by decide)
  · exact absurd heq (by decide)
  · exact absurd heq (by decide)
  · dsimp only
    split <;> rename_i hq
    · rw [herr] at hq
      simp only [Except.error.injEq] at hq
      subst hq
      rfl
    · rw [herr] at hq
      exact absurd hq (by simp)
  · exact absurd heq (by decide)

theorem ingressLoop_streaming_step (a : Nat → Option ErrorCode)
    (s : CodecState) (buf : List Nat) (chunk : List Nat)
    (hstop : ¬(s.connError ≠ none ∨ buf = [] ∨ s.parserPaused = true))
    (hfs : s.frameState = .payloadStreaming)
    (hok : parseData buf
      ⟨FrameType.DATA, min s.pendingDataFrameBytes buf.length⟩ =
      .ok chunk) :
    ingressLoop a s buf =
      ((ingressLoop a (nextStreaming s (min s.pendingDataFrameBytes
          buf.length)) (buf.drop (min s.pendingDataFrameBytes
          buf.length))).1,
        min s.pendingDataFrameBytes buf.length +
          (ingressLoop a (nextStreaming s (min s.pendingDataFrameBytes
            buf.length)) (buf.drop (min s.pendingDataFrameBytes
            buf.length))).2.1,
        HqEvent.dataChunk chunk ::
          (ingressLoop a (nextStreaming s (min s.pendingDataFrameBytes
            buf.length)) (buf.drop (min s.pendingDataFrameBytes
            buf.length))).2.2) := by
  conv_lhs => rw [ingressLoop]
  rw [dif_neg hstop]
  split <;> rename_i heq <;> rw [hfs] at heq
  · exact absurd heq (by decide)
  · exact absurd heq (by decide)
  · exact absurd heq (by decide)
  · dsimp only
    split <;> rename_i hq
    · rw [hok] at hq
      exact absurd hq (by simp)
    · rw [hok] at hq
      simp only [Except.ok.injEq] at hq
      subst hq
      rfl
  · exact absurd heq (by decide)

theorem ingressLoop_payloadPR (a : Nat → Option ErrorCode)
    (s : CodecState) (buf : List Nat)
    (hstop : ¬(s.connError ≠ none ∨ buf = [] ∨ s.parserPaused = true))
    (hfs : s.frameState = .payloadPR) :
    ingressLoop a s buf =
      ({s with totalBytesParsed := s.totalBytesParsed + buf.length},
        buf.length, []) := by
  rw [ingressLoop, dif_neg hstop]
  split <;> rename_i heq <;> rw [hfs] at heq
  · exact absurd heq (by decide)
  · exact absurd heq (by decide)
  · exact absurd heq (by decide)
  · exact absurd heq (by decide)

theorem ingressLoop_no_errorEvent (a : Nat → Option ErrorCode)
    (s : CodecState) (buf : List Nat) :
    countErrorEvents (ingressLoop a s buf).2.2 = 0 := by
  induction s, buf using ingressLoop.induct a with
  | case1 s buf hstop =>
    rw [ingressLoop_stop a s buf hstop]
    rfl
  | case2 s buf hstop hfs hdec =>
    rw [ingressLoop_headerType_short a s buf hstop hfs hdec]
    rfl
  | case3 s buf hstop hfs t n hdec err hall =>
    rw [ingressLoop_headerType_notAllowed a s buf t n err hstop hfs hdec hall]
    rfl
  | case4 s buf hstop hfs t n hdec hall s1 ih =>
    rw [ingressLoop_headerType_step a s buf t n hstop hfs hdec hall]
    exact ih
  | case5 s buf hstop hfs hdec =>
    rw [ingressLoop_headerLength_short a s buf hstop hfs hdec]
    rfl
  | case6 s buf hstop hfs len n hdec nextState s1 ih =>
    rw [ingressLoop_headerLength_step a s buf len n hstop hfs hdec]
    simpa [countErrorEvents, List.countP_cons] using ih
  | case7 s buf hstop hfs hlen =>
    rw [ingressLoop_payload_short a s buf hstop hfs hlen]
    rfl
  | case8 s buf hstop hfs hlen err hperr =>
    rw [ingressLoop_payload_error a s buf err hstop hfs hlen hperr]
    rfl
  | case9 s buf hstop hfs hlen hperr s1 ih =>
    rw [ingressLoop_payload_step a s buf hstop hfs hlen hperr]
    cases hk : isKnownFrameType s.curType <;>
      simpa [hk, countErrorEvents, List.countP_append, List.countP_cons]
        using ih
  | case10 s buf hstop hfs consume e herr =>
    rw [ingressLoop_streaming_error a s buf e hstop hfs herr]
    rfl
  | case11 s buf hstop hfs consume chunk hok pending s1 ih =>
    rw [ingressLoop_streaming_step a s buf chunk hstop hfs hok]
    simpa [countErrorEvents, List.countP_cons] using ih
  | case12 s buf hstop hfs =>
    rw [ingressLoop_payloadPR a s buf hstop hfs]
    rfl

theorem countErrorEvents_append (l1 l2 : List HqEvent) :
    countErrorEvents (l1 ++ l2) =
      countErrorEvents l1 + countErrorEvents l2 := by
  simp [countErrorEvents, List.countP_append]

theorem onFramedIngress_stop (a : Nat → Option ErrorCode) (s : CodecState)
    (buf : List Nat) (h : s.connError ≠ none) :
    onFramedIngress a s buf = (s, 0, []) := by
  unfold onFramedIngress
  rw [if_pos h]

theorem onFramedIngress_connError (a : Nat → Option ErrorCode)
    (s : CodecState) (buf : List Nat) (h : s.connError = none) :
    (onFramedIngress a s buf).1.connError =
      (ingressLoop a s buf).1.connError := by
  unfold onFramedIngress
  rw [if_neg (by simp [h])]
  dsimp only
  cases hc : (ingressLoop a s buf).1.connError <;> simp [hc]

theorem onFramedIngress_count_none (a : Nat → Option ErrorCode)
    (s : CodecState) (buf : List Nat) (h : s.connError = none)
    (hc : (ingressLoop a s buf).1.connError = none) :
    countErrorEvents (onFramedIngress a s buf).2.2 = 0 := by
  unfold onFramedIngress
  rw [if_neg (by simp [h])]
  dsimp only
  rw [hc]
  exact ingressLoop_no_errorEvent a s buf

theorem onFramedIngress_count_some (a : Nat → Option ErrorCode)
    (s : CodecState) (buf : List Nat) (err : ErrorCode)
    (h : s.connError = none)
    (hc : (ingressLoop a s buf).1.connError = some err) :
    countErrorEvents (onFramedIngress a s buf).2.2 = 1 := by
  have h0 : countErrorEvents (ingressLoop a s buf).2.2 = 0 :=
    ingressLoop_no_errorEvent a s buf
  unfold onFramedIngress
  rw [if_neg (by simp [h])]
  dsimp only
  rw [hc]
  dsimp only
  rw [countErrorEvents_append, h0]
  simp [countErrorEvents, List.countP_cons]

theorem runIngressCalls_stop (a : Nat → Option ErrorCode) (s : CodecState)
    (bufs : List (List Nat)) (h : s.connError ≠ none) :
    runIngressCalls a s bufs = (s, []) := by
  induction bufs with
  | nil => rfl
  | cons buf rest ih =>
    simp only [runIngressCalls]
    rw [onFramedIngress_stop a s buf h]
    dsimp only
    rw [ih]
    rfl

theorem runIngressCalls_count_le (a : Nat → Option ErrorCode)
    (bufs : List (List Nat)) :
    ∀ s : CodecState, s.connError = none →
      countErrorEvents (runIngressCalls a s bufs).2 ≤ 1 := by
  induction bufs with
  | nil =>
    intro s h
    simp [runIngressCalls, countErrorEvents]
  | cons buf rest ih =>
    intro s h
    simp only [runIngressCalls]
    rw [countErrorEvents_append]
    cases hc : (ingressLoop a s buf).1.connError with
    | none =>
      have h1 : countErrorEvents (onFramedIngress a s buf).2.2 = 0 :=
        onFramedIngress_count_none a s buf h hc
      have h2 : (onFramedIngress a s buf).1.connError = none := by
        rw [onFramedIngress_connError a s buf h, hc]
      have h3 := ih (onFramedIngress a s buf).1 h2
      omega
    | some err =>
      have h1 : countErrorEvents (onFramedIngress a s buf).2.2 = 1 :=
        onFramedIngress_count_some a s buf err h hc
      have h2 : (onFramedIngress a s buf).1.connError ≠ none := by
        rw [onFramedIngress_connError a s buf h, hc]
        simp
      rw [runIngressCalls_stop a (onFramedIngress a s buf).1 rest h2]
      simp only [h1]
      simp [countErrorEvents]

theorem onFramedIngress_parsed (a : Nat → Option ErrorCode)
    (s : CodecState) (buf : List Nat) (h : s.connError = none) :
    (onFramedIngress a s buf).2.1 = (ingressLoop a s buf).2.1 := by
  unfold onFramedIngress
  rw [if_neg (by simp [h])]
  dsimp only
  cases hc : (ingressLoop a s buf).1.connError <;> simp [hc]

/-- C3: once a connection error is surfaced, every later onFramedIngress
call returns the state unchanged, consumes 0 bytes and fires no
callback; and over any sequence of calls starting from a clean codec,
onError fires at most once. -/
theorem c3_error_latch (a : Nat → Option ErrorCode) (s : CodecState)
    (buf : List Nat) (s0 : CodecState) (bufs : List (List Nat))
    (herr : s.connError ≠ none) (hclean : s0.connError = none) :
    onFramedIngress a s buf = (s, 0, []) ∧
      countErrorEvents (runIngressCalls a s0 bufs).2 ≤ 1 :=
  ⟨onFramedIngress_stop a s buf herr,
    runIngressCalls_count_le a bufs s0 hclean⟩

theorem c3_error_latch_witness :
    onFramedIngress (fun _ => none)
        ⟨.headerType, 0, 0, 0, 0, some .HTTP_WRONG_STREAM, false⟩ [0] =
      (⟨.headerType, 0, 0, 0, 0, some .HTTP_WRONG_STREAM, false⟩, 0, []) ∧
      countErrorEvents (runIngressCalls (fun _ => none)
        ⟨.headerType, 0, 0, 0, 0, none, false⟩ [[1, 5]]).2 ≤ 1 :=
  c3_error_latch (fun _ => none)
    ⟨.headerType, 0, 0, 0, 0, some .HTTP_WRONG_STREAM, false⟩ [0]
    ⟨.headerType, 0, 0, 0, 0, none, false⟩ [[1, 5]] (by simp) rfl

/-- C10: in the payload state (every non-DATA frame, unknown types
included), the payload is consumed atomically: with fewer than
curLength bytes buffered the call returns the state unchanged and
consumes nothing, and whenever the call consumes the payload all
curLength bytes are available and at least curLength bytes are
consumed. -/
theorem c10_payload_atomic (a : Nat → Option ErrorCode) (s : CodecState)
    (buf : List Nat) (hclean : s.connError = none)
    (hp : s.parserPaused = false) (hfs : s.frameState = .payload) :
    (buf.length < s.curLength → onFramedIngress a s buf = (s, 0, [])) ∧
    (s.curLength ≤ buf.length →
      s.curLength ≤ (onFramedIngress a s buf).2.1) := by
  constructor
  · intro h
    have hloop : ingressLoop a s buf = (s, 0, []) := by
      by_cases hb : buf = []
      · exact ingressLoop_stop a s buf (Or.inr (Or.inl hb))
      · exact ingressLoop_payload_short a s buf
          (by simp [hclean, hb, hp]) hfs h
    unfold onFramedIngress
    rw [if_neg (by simp [hclean])]
    dsimp only
    rw [hloop]
    simp [hclean]
  · intro h2
    rw [onFramedIngress_parsed a s buf hclean]
    by_cases hb : buf = []
    · have hz : s.curLength = 0 := by
        subst hb
        simpa using h2
      rw [ingressLoop_stop a s buf (Or.inr (Or.inl hb)), hz]
    · have hstop : ¬(s.connError ≠ none ∨ buf = [] ∨
          s.parserPaused = true) := by simp [hclean, hb, hp]
      cases hperr : parseFrameErr s.curType s.curLength buf with
      | some err =>
        rw [ingressLoop_payload_error a s buf err hstop hfs
          (by omega) hperr]
      | none =>
        rw [ingressLoop_payload_step a s buf hstop hfs (by omega) hperr]
        dsimp only
        omega

theorem c10_payload_atomic_witness :
    (([1, 2] : List Nat).length <
        (⟨.payload, 33, 3, 0, 0, none, false⟩ : CodecState).curLength →
      onFramedIngress (fun _ => none)
          ⟨.payload, 33, 3, 0, 0, none, false⟩ [1, 2] =
        (⟨.payload, 33, 3, 0, 0, none, false⟩, 0, [])) ∧
    ((⟨.payload, 33, 3, 0, 0, none, false⟩ : CodecState).curLength ≤
        ([1, 2] : List Nat).length →
      (⟨.payload, 33, 3, 0, 0, none, false⟩ : CodecState).curLength ≤
        (onFramedIngress (fun _ => none)
          ⟨.payload, 33, 3, 0, 0, none, false⟩ [1, 2]).2.1) :=
  c10_payload_atomic (fun _ => none)
    ⟨.payload, 33, 3, 0, 0, none, false⟩ [1, 2] rfl rfl rfl

theorem encodeQuicInteger_len_bounds {v : Nat} {e : List Nat}
    (he : encodeQuicInteger v = some e) :
    1 ≤ e.length ∧ e.length ≤ 8 := by
  rcases encodeQuicInteger_length he with h | h | h | h <;> omega

theorem parseFullFrame_encode {t L : Nat} {tE LE payload : List Nat}
    (ht : encodeQuicInteger t = some tE)
    (hL : encodeQuicInteger L = some LE)
    (hp : L ≤ payload.length) :
    parseFullFrame (tE ++ LE ++ payload) = dispatchFrame t payload L := by
  obtain ⟨ht1, ht8⟩ := encodeQuicInteger_len_bounds ht
  obtain ⟨hL1, hL8⟩ := encodeQuicInteger_len_bounds hL
  unfold parseFullFrame
  rw [List.append_assoc]
  rw [decodeQuicInteger_encode ht ht8 (LE ++ payload)]
  dsimp only
  rw [List.drop_left]
  rw [decodeQuicInteger_encode hL hL8 payload]
  dsimp only
  rw [List.drop_left]
  rw [if_neg (by omega)]

theorem roundtrip_data {payload : List Nat} (h0 : payload.length ≠ 0)
    (h62 : payload.length < 2 ^ 62) :
    ∃ bytes, serializeFrame (Frame.data payload) = some bytes ∧
      parseFullFrame bytes = some (Frame.data payload) := by
  obtain ⟨LE, hLE⟩ := encodeQuicInteger_exists h62
  have ht : encodeQuicInteger FrameType.DATA = some [FrameType.DATA] :=
    encodeQuicInteger_small (by decide)
  refine ⟨[FrameType.DATA] ++ LE ++ payload, ?_, ?_⟩
  · simp [serializeFrame, writeData, writeSimpleFrame, writeFrameHeader,
      ht, hLE, runWriter]
  · rw [parseFullFrame_encode ht hLE (le_refl _)]
    simp [dispatchFrame, parseData, h0, List.take_length, Except.toOption]

theorem roundtrip_headers {payload : List Nat}
    (h62 : payload.length < 2 ^ 62) :
    ∃ bytes, serializeFrame (Frame.headers payload) = some bytes ∧
      parseFullFrame bytes = some (Frame.headers payload) := by
  obtain ⟨LE, hLE⟩ := encodeQuicInteger_exists h62
  have ht : encodeQuicInteger FrameType.HEADERS = some [FrameType.HEADERS] :=
    encodeQuicInteger_small (by decide)
  refine ⟨[FrameType.HEADERS] ++ LE ++ payload, ?_, ?_⟩
  · simp [serializeFrame, writeHeaders, writeSimpleFrame, writeFrameHeader,
      ht, hLE, runWriter]
  · rw [parseFullFrame_encode ht hLE (le_refl _)]
    simp [dispatchFrame, parseHeaders, List.take_length, FrameType.DATA,
      FrameType.HEADERS, Except.toOption]

theorem roundtrip_goaway {lastStreamId : Nat} (h62 : lastStreamId < 2 ^ 62) :
    ∃ bytes, serializeFrame (Frame.goaway lastStreamId) = some bytes ∧
      parseFullFrame bytes = some (Frame.goaway lastStreamId) := by
  obtain ⟨E, hE⟩ := encodeQuicInteger_exists h62
  obtain ⟨hE1, hE8⟩ := encodeQuicInteger_len_bounds hE
  have hsz : getQuicIntegerSize lastStreamId = some E.length :=
    getQuicIntegerSize_eq_length hE
  obtain ⟨LE, hLE⟩ := encodeQuicInteger_exists
    (show E.length < 2 ^ 62 by omega)
  have ht : encodeQuicInteger FrameType.GOAWAY = some [FrameType.GOAWAY] :=
    encodeQuicInteger_small (by decide)
  have hdec : decodeQuicInteger E E.length = some (lastStreamId, E.length) := by
    have := decodeQuicInteger_encode hE (le_refl E.length) []
    simpa using this
  refine ⟨[FrameType.GOAWAY] ++ LE ++ E, ?_, ?_⟩
  · simp [serializeFrame, writeGoaway, hsz, hE, writeSimpleFrame,
      writeFrameHeader, ht, hLE, runWriter]
  · rw [parseFullFrame_encode ht hLE (le_refl _)]
    simp [dispatchFrame, parseGoaway, hdec, FrameType.DATA,
      FrameType.HEADERS, FrameType.PRIORITY, FrameType.CANCEL_PUSH,
      FrameType.SETTINGS, FrameType.PUSH_PROMISE, FrameType.GOAWAY,
      Except.toOption]

theorem roundtrip_cancelPush {pushId : Nat}
    (hi : isInternalPushId pushId = true) (h64 : pushId < 2 ^ 64)
    (h62 : pushId % 2 ^ 63 < 2 ^ 62) :
    ∃ bytes, serializeFrame (Frame.cancelPush pushId) = some bytes ∧
      parseFullFrame bytes = some (Frame.cancelPush pushId) := by
  have hc62 : clearPushIdMask pushId < 2 ^ 62 := h62
  obtain ⟨E, hE⟩ := encodeQuicInteger_exists hc62
  obtain ⟨hE1, hE8⟩ := encodeQuicInteger_len_bounds hE
  have hsz : getQuicIntegerSize (clearPushIdMask pushId) = some E.length :=
    getQuicIntegerSize_eq_length hE
  obtain ⟨LE, hLE⟩ := encodeQuicInteger_exists
    (show E.length < 2 ^ 62 by omega)
  have ht : encodeQuicInteger FrameType.CANCEL_PUSH =
      some [FrameType.CANCEL_PUSH] := encodeQuicInteger_small (by decide)
  have hdec : decodeQuicInteger E E.length =
      some (clearPushIdMask pushId, E.length) := by
    have := decodeQuicInteger_encode hE (le_refl E.length) []
    simpa using this
  refine ⟨[FrameType.CANCEL_PUSH] ++ LE ++ E, ?_, ?_⟩
  · simp [serializeFrame, writeCancelPush, hsz, hE, writeSimpleFrame,
      writeFrameHeader, ht, hLE, runWriter]
  · rw [parseFullFrame_encode ht hLE (le_refl _)]
    simp [dispatchFrame, parseCancelPush, hdec, FrameType.DATA,
      FrameType.HEADERS, FrameType.PRIORITY, FrameType.CANCEL_PUSH,
      Except.toOption, orPushIdMask_clear hi h64]

theorem roundtrip_maxPushId {pushId : Nat}
    (hi : isInternalPushId pushId = true) (h64 : pushId < 2 ^ 64)
    (h62 : pushId % 2 ^ 63 < 2 ^ 62) :
    ∃ bytes, serializeFrame (Frame.maxPushId pushId) = some bytes ∧
      parseFullFrame bytes = some (Frame.maxPushId pushId) := by
  have hc62 : clearPushIdMask pushId < 2 ^ 62 := h62
  obtain ⟨E, hE⟩ := encodeQuicInteger_exists hc62
  obtain ⟨hE1, hE8⟩ := encodeQuicInteger_len_bounds hE
  have hsz : getQuicIntegerSize (clearPushIdMask pushId) = some E.length :=
    getQuicIntegerSize_eq_length hE
  obtain ⟨LE, hLE⟩ := encodeQuicInteger_exists
    (show E.length < 2 ^ 62 by omega)
  have ht : encodeQuicInteger FrameType.MAX_PUSH_ID =
      some [FrameType.MAX_PUSH_ID] := encodeQuicInteger_small (by decide)
  have hdec : decodeQuicInteger E E.length =
      some (clearPushIdMask pushId, E.length) := by
    have := decodeQuicInteger_encode hE (le_refl E.length) []
    simpa using this
  refine ⟨[FrameType.MAX_PUSH_ID] ++ LE ++ E, ?_, ?_⟩
  · simp [serializeFrame, writeMaxPushId, hsz, hE, writeSimpleFrame,
      writeFrameHeader, ht, hLE, runWriter]
  · rw [parseFullFrame_encode ht hLE (le_refl _)]
    simp [dispatchFrame, parseMaxPushId, hdec, FrameType.DATA,
      FrameType.HEADERS, FrameType.PRIORITY, FrameType.CANCEL_PUSH,
      FrameType.SETTINGS, FrameType.PUSH_PROMISE, FrameType.GOAWAY,
      FrameType.MAX_PUSH_ID, Except.toOption, orPushIdMask_clear hi h64]

theorem roundtrip_pushPromise {pushId : Nat} {block : List Nat}
    (hi : isInternalPushId pushId = true) (h64 : pushId < 2 ^ 64)
    (h62 : pushId % 2 ^ 63 < 2 ^ 62)
    (hsz62 : (getQuicIntegerSize (pushId % 2 ^ 63)).getD 0 + block.length <
      2 ^ 62) :
    ∃ bytes, serializeFrame (Frame.pushPromise pushId block) = some bytes ∧
      parseFullFrame bytes = some (Frame.pushPromise pushId block) := by
  have hc62 : clearPushIdMask pushId < 2 ^ 62 := h62
  obtain ⟨E, hE⟩ := encodeQuicInteger_exists hc62
  obtain ⟨hE1, hE8⟩ := encodeQuicInteger_len_bounds hE
  have hsz : getQuicIntegerSize (clearPushIdMask pushId) = some E.length :=
    getQuicIntegerSize_eq_length hE
  have hg : getQuicIntegerSize (pushId % 2 ^ 63) = some E.length := hsz
  have hL62 : E.length + block.length < 2 ^ 62 := by
    rw [hg] at hsz62
    simpa using hsz62
  obtain ⟨LE, hLE⟩ := encodeQuicInteger_exists hL62
  have ht : encodeQuicInteger FrameType.PUSH_PROMISE =
      some [FrameType.PUSH_PROMISE] := encodeQuicInteger_small (by decide)
  have hdec : decodeQuicInteger (E ++ block) (E.length + block.length) =
      some (clearPushIdMask pushId, E.length) :=
    decodeQuicInteger_encode hE (by omega) block
  refine ⟨[FrameType.PUSH_PROMISE] ++ LE ++ (E ++ block), ?_, ?_⟩
  · simp [serializeFrame, writePushPromise, hsz, hE, writeFrameHeader,
      ht, hLE, runWriter]
  · rw [parseFullFrame_encode ht hLE (by simp)]
    have harith : E.length + block.length - E.length = block.length := by
      omega
    simp [dispatchFrame, parsePushPromise, hdec, FrameType.DATA,
      FrameType.HEADERS, FrameType.PRIORITY, FrameType.CANCEL_PUSH,
      FrameType.SETTINGS, FrameType.PUSH_PROMISE, Except.toOption,
      orPushIdMask_clear hi h64, List.drop_left, harith, List.take_length]

theorem settingsBytes_roundtrip (pairs : List (Nat × Nat)) : ∀ sz : Nat,
    pairs.all (fun pr => knownSettingId pr.1 && pr.2 < 2 ^ 62) = true →
    settingsPayloadSize pairs = some sz →
    (settingsBytes pairs).length = sz ∧
      parseSettings (settingsBytes pairs) sz = .ok pairs := by
  induction pairs with
  | nil =>
    intro sz h hsz
    simp only [settingsPayloadSize, Option.some.injEq] at hsz
    subst hsz
    refine ⟨by simp [settingsBytes], ?_⟩
    rw [parseSettings]
    simp [settingsBytes]
  | cons p rest ih =>
    obtain ⟨id, v⟩ := p
    intro sz h hsz
    simp only [List.all_cons, Bool.and_eq_true, decide_eq_true_eq] at h
    obtain ⟨⟨hknown, hv62⟩, hrest⟩ := h
    have hid64 : id < 64 := knownSettingId_lt hknown
    have hidE : encodeQuicInteger id = some [id] :=
      encodeQuicInteger_small hid64
    obtain ⟨vE, hvE⟩ := encodeQuicInteger_exists hv62
    obtain ⟨hv1, hv8⟩ := encodeQuicInteger_len_bounds hvE
    simp only [settingsPayloadSize] at hsz
    rw [getQuicIntegerSize_eq_length hidE] at hsz
    rw [getQuicIntegerSize_eq_length hvE] at hsz
    cases hrsz : settingsPayloadSize rest with
    | none =>
      rw [hrsz] at hsz
      simp at hsz
    | some restSize =>
      rw [hrsz] at hsz
      simp only [List.length_cons, List.length_nil, Option.some.injEq] at hsz
      obtain ⟨ihlen, ihparse⟩ := ih restSize hrest hrsz
      have hbytes : settingsBytes ((id, v) :: rest) =
          [id] ++ (vE ++ settingsBytes rest) := by
        simp [settingsBytes, hidE, hvE]
      constructor
      · rw [hbytes]
        simp only [List.length_append, List.length_cons, List.length_nil,
          ihlen]
        omega
      · rw [hbytes]
        rw [parseSettings]
        rw [if_neg (by omega)]
        have hdec1 : decodeQuicInteger
            ([id] ++ (vE ++ settingsBytes rest)) sz = some (id, 1) := by
          have h1 := decodeQuicInteger_encode hidE
            (show ([id] : List Nat).length ≤ sz by simp; omega)
            (vE ++ settingsBytes rest)
          simpa using h1
        split <;> rename_i hq
        · rw [hdec1] at hq
          exact absurd hq (by simp)
        · rename_i sid n1
          rw [hdec1] at hq
          simp only [Option.some.injEq, Prod.mk.injEq] at hq
          obtain ⟨rfl, rfl⟩ := hq
          have hdrop1 : ([id] ++ (vE ++ settingsBytes rest)).drop 1 =
              vE ++ settingsBytes rest := by simp
          rw [hdrop1]
          have hdec2 : decodeQuicInteger (vE ++ settingsBytes rest)
              (sz - 1) = some (v, vE.length) :=
            decodeQuicInteger_encode hvE (by omega) _
          have hdsv : decodeSettingValue (vE ++ settingsBytes rest)
              (sz - 1) id = .ok (some v, vE.length) := by
            simp [decodeSettingValue, hdec2, hknown]
          rw [hdsv]
          dsimp only
          have hdrop2 : ([id] ++ (vE ++ settingsBytes rest)).drop
              (1 + vE.length) = settingsBytes rest := by
            rw [← List.append_assoc]
            have hlen2 : (([id] ++ vE) : List Nat).length =
                1 + vE.length := by
              simp
              omega
            rw [← hlen2, List.drop_left]
          rw [hdrop2]
          have hsz2 : sz - 1 - vE.length = restSize := by omega
          rw [hsz2, ihparse]

theorem roundtrip_settings {pairs : List (Nat × Nat)} {sz : Nat}
    (hall : pairs.all (fun pr => knownSettingId pr.1 && pr.2 < 2 ^ 62) = true)
    (hsz : settingsPayloadSize pairs = some sz) (hsz62 : sz < 2 ^ 62) :
    ∃ bytes, serializeFrame (Frame.settings pairs) = some bytes ∧
      parseFullFrame bytes = some (Frame.settings pairs) := by
  obtain ⟨hlen, hparse⟩ := settingsBytes_roundtrip pairs sz hall hsz
  obtain ⟨LE, hLE⟩ := encodeQuicInteger_exists hsz62
  have ht : encodeQuicInteger FrameType.SETTINGS =
      some [FrameType.SETTINGS] := encodeQuicInteger_small (by decide)
  refine ⟨[FrameType.SETTINGS] ++ LE ++ settingsBytes pairs, ?_, ?_⟩
  · simp [serializeFrame, writeSettings, hsz, writeFrameHeader, ht, hLE,
      runWriter]
  · rw [parseFullFrame_encode ht hLE (le_of_eq hlen.symm)]
    simp [dispatchFrame, FrameType.DATA, FrameType.HEADERS,
      FrameType.PRIORITY, FrameType.CANCEL_PUSH, FrameType.SETTINGS,
      hparse, Except.toOption]

theorem roundtrip_priority_root {p : PriorityUpdate}
    (hpt : p.prioritizedType ≠ PriorityElementType.TREE_ROOT)
    (hpid : p.prioritizedElementId < 2 ^ 62)
    (hdt : p.dependencyType = PriorityElementType.TREE_ROOT)
    (hdid : p.elementDependencyId = 0) (hw : p.weight < 256) :
    ∃ bytes, serializeFrame (Frame.priority p) = some bytes ∧
      parseFullFrame bytes = some (Frame.priority p) := by
  obtain ⟨pt, dt, ex, pid, did, w⟩ := p
  simp only at hpt hpid hdt hdid hw
  subst hdt hdid
  obtain ⟨pidE, hpidE⟩ := encodeQuicInteger_exists hpid
  obtain ⟨hp1, hp8⟩ := encodeQuicInteger_len_bounds hpidE
  have hgp : getQuicIntegerSize pid = some pidE.length :=
    getQuicIntegerSize_eq_length hpidE
  obtain ⟨LE, hLE⟩ := encodeQuicInteger_exists
    (show pidE.length + 2 < 2 ^ 62 by omega)
  have ht : encodeQuicInteger FrameType.PRIORITY =
      some [FrameType.PRIORITY] := encodeQuicInteger_small (by decide)
  have hflags : encodePriorityFlags ⟨pt, .TREE_ROOT, ex, pid, 0, w⟩ % 256 =
      encodePriorityFlags ⟨pt, .TREE_ROOT, ex, pid, 0, w⟩ :=
    Nat.mod_eq_of_lt (encodePriorityFlags_lt _)
  have hsub1 : sub64 (pidE.length + 2) 1 = pidE.length + 1 := by
    rw [sub64_of_le (by omega) (by omega) (by omega)]
    omega
  have hdec1 : decodeQuicInteger (pidE ++ [w]) (pidE.length + 1) =
      some (pid, pidE.length) :=
    decodeQuicInteger_encode hpidE (by omega) _
  have hdrop1 : (pidE ++ [w]).drop pidE.length = [w] := List.drop_left _ _
  have hsub2 : sub64 1 1 = 0 := by
    rw [sub64_of_le (by omega) (by omega) (by omega)]
  refine ⟨[FrameType.PRIORITY] ++ LE ++
    (encodePriorityFlags ⟨pt, .TREE_ROOT, ex, pid, 0, w⟩ :: (pidE ++ [w])),
    ?_, ?_⟩
  · simp [serializeFrame, writePriority, hgp, writeFrameHeader, ht, hLE,
      runWriter, hpidE, Nat.mod_eq_of_lt hw]
  · rw [parseFullFrame_encode ht hLE (by simp)]
    simp [dispatchFrame, FrameType.DATA, FrameType.HEADERS,
      FrameType.PRIORITY, parsePriority, hflags, hsub1,
      decodePriorityFlags_encode ⟨pt, .TREE_ROOT, ex, pid, 0, w⟩, hpt,
      hdec1, hdrop1, hsub2, Except.toOption, Nat.mod_eq_of_lt hw]

theorem roundtrip_priority_dep {p : PriorityUpdate}
    (hpt : p.prioritizedType ≠ PriorityElementType.TREE_ROOT)
    (hpid : p.prioritizedElementId < 2 ^ 62)
    (hdt : p.dependencyType ≠ PriorityElementType.TREE_ROOT)
    (hdid : p.elementDependencyId < 2 ^ 62) (hw : p.weight < 256) :
    ∃ bytes, serializeFrame (Frame.priority p) = some bytes ∧
      parseFullFrame bytes = some (Frame.priority p) := by
  obtain ⟨pt, dt, ex, pid, did, w⟩ := p
  simp only at hpt hpid hdt hdid hw
  obtain ⟨pidE, hpidE⟩ := encodeQuicInteger_exists hpid
  obtain ⟨hp1, hp8⟩ := encodeQuicInteger_len_bounds hpidE
  obtain ⟨didE, hdidE⟩ := encodeQuicInteger_exists hdid
  obtain ⟨hd1, hd8⟩ := encodeQuicInteger_len_bounds hdidE
  have hgp : getQuicIntegerSize pid = some pidE.length :=
    getQuicIntegerSize_eq_length hpidE
  have hgd : getQuicIntegerSize did = some didE.length :=
    getQuicIntegerSize_eq_length hdidE
  obtain ⟨LE, hLE⟩ := encodeQuicInteger_exists
    (show pidE.length + 2 + didE.length < 2 ^ 62 by omega)
  have ht : encodeQuicInteger FrameType.PRIORITY =
      some [FrameType.PRIORITY] := encodeQuicInteger_small (by decide)
  have hflags : encodePriorityFlags ⟨pt, dt, ex, pid, did, w⟩ % 256 =
      encodePriorityFlags ⟨pt, dt, ex, pid, did, w⟩ :=
    Nat.mod_eq_of_lt (encodePriorityFlags_lt _)
  have hsub1 : sub64 (pidE.length + 2 + didE.length) 1 =
      pidE.length + 1 + didE.length := by
    rw [sub64_of_le (by omega) (by omega) (by omega)]
    omega
  have hdec1 : decodeQuicInteger (pidE ++ (didE ++ [w]))
      (pidE.length + 1 + didE.length) = some (pid, pidE.length) :=
    decodeQuicInteger_encode hpidE (by omega) _
  have hdrop1 : (pidE ++ (didE ++ [w])).drop pidE.length = didE ++ [w] :=
    List.drop_left _ _
  have hdec2 : decodeQuicInteger (didE ++ [w])
      (pidE.length + 1 + didE.length - pidE.length) =
      some (did, didE.length) :=
    decodeQuicInteger_encode hdidE (by omega) _
  have hdec2b : decodeQuicInteger (didE ++ [w]) (didE.length + 1) =
      some (did, didE.length) :=
    decodeQuicInteger_encode hdidE (by omega) _
  have hdec2c : decodeQuicInteger (didE ++ [w]) (1 + didE.length) =
      some (did, didE.length) :=
    decodeQuicInteger_encode hdidE (by omega) _
  have hdrop2 : (pidE ++ (didE ++ [w])).drop (pidE.length + didE.length) =
      [w] := by
    rw [← List.append_assoc]
    rw [show pidE.length + didE.length = (pidE ++ didE).length by simp]
    exact List.drop_left _ _
  have hsub2 : sub64 1 1 = 0 := by
    rw [sub64_of_le (by omega) (by omega) (by omega)]
  have hsub2b : sub64
      (pidE.length + 1 + didE.length - pidE.length - didE.length) 1 = 0 := by
    rw [show pidE.length + 1 + didE.length - pidE.length - didE.length = 1
      by omega]
    exact hsub2
  refine ⟨[FrameType.PRIORITY] ++ LE ++
    (encodePriorityFlags ⟨pt, dt, ex, pid, did, w⟩ ::
      (pidE ++ (didE ++ [w]))), ?_, ?_⟩
  · simp [serializeFrame, writePriority, hgp, hgd, writeFrameHeader, ht,
      hLE, runWriter, hpidE, hdidE, hdt, Nat.mod_eq_of_lt hw]
  · rw [parseFullFrame_encode ht hLE (by simp; omega)]
    simp [dispatchFrame, FrameType.DATA, FrameType.HEADERS,
      FrameType.PRIORITY, parsePriority, hflags, hsub1,
      decodePriorityFlags_encode ⟨pt, dt, ex, pid, did, w⟩, hpt, hdt,
      hdec1, hdrop1, hdec2, hdec2b, hdec2c, hdrop2, hsub2, hsub2b,
      Except.toOption, Nat.mod_eq_of_lt hw]

/-- C2: every frame value satisfying the data-model constraints
serializes successfully, and parsing the produced bytes with the codec
parse path yields the same frame back. -/
theorem c2_roundtrip (F : Frame) (h : F.valid = true) :
    ∃ bytes, serializeFrame F = some bytes ∧
      parseFullFrame bytes = some F := by
  cases F with
  | data payload =>
    simp only [Frame.valid, Bool.and_eq_true, decide_eq_true_eq, ne_eq] at h
    exact roundtrip_data h.1 h.2
  | headers payload =>
    simp only [Frame.valid, decide_eq_true_eq] at h
    exact roundtrip_headers h
  | priority p =>
    simp only [Frame.valid, Bool.and_eq_true, decide_eq_true_eq, ne_eq] at h
    obtain ⟨⟨⟨hpt, hpid⟩, hdep⟩, hw⟩ := h
    by_cases hdt : p.dependencyType = PriorityElementType.TREE_ROOT
    · rw [if_neg (not_not_intro hdt)] at hdep
      exact roundtrip_priority_root hpt hpid hdt (by simpa using hdep) hw
    · rw [if_pos hdt] at hdep
      exact roundtrip_priority_dep hpt hpid hdt (by simpa using hdep) hw
  | cancelPush pushId =>
    simp only [Frame.valid, Bool.and_eq_true, decide_eq_true_eq] at h
    obtain ⟨⟨hi, h64⟩, h62⟩ := h
    exact roundtrip_cancelPush hi h64 h62
  | settings pairs =>
    simp only [Frame.valid, Bool.and_eq_true] at h
    cases hsz : settingsPayloadSize pairs with
    | none =>
      rw [hsz] at h
      exact absurd h.2 (by simp)
    | some sz =>
      rw [hsz] at h
      have h62 : sz < 2 ^ 62 := by simpa using h.2
      exact roundtrip_settings h.1 hsz h62
  | pushPromise pushId block =>
    simp only [Frame.valid, Bool.and_eq_true, decide_eq_true_eq] at h
    obtain ⟨⟨⟨hi, h64⟩, h62⟩, hsz62⟩ := h
    exact roundtrip_pushPromise hi h64 h62 hsz62
  | goaway lastStreamId =>
    simp only [Frame.valid, decide_eq_true_eq] at h
    exact roundtrip_goaway h
  | maxPushId pushId =>
    simp only [Frame.valid, Bool.and_eq_true, decide_eq_true_eq] at h
    obtain ⟨⟨hi, h64⟩, h62⟩ := h
    exact roundtrip_maxPushId hi h64 h62

theorem c2_roundtrip_witness :
    Frame.valid (Frame.settings [(1, 4096), (7, 100)]) = true ∧
    ∃ bytes, serializeFrame (Frame.settings [(1, 4096), (7, 100)]) =
        some bytes ∧
      parseFullFrame bytes = some (Frame.settings [(1, 4096), (7, 100)]) :=
  ⟨by decide, c2_roundtrip (Frame.settings [(1, 4096), (7, 100)]) (by decide)⟩

theorem PriorityElementType.ofCode_eq_treeRoot {n : Nat} (h : n < 4) :
    (PriorityElementType.ofCode n = .TREE_ROOT) ↔ n = 3 := by
  unfold PriorityElementType.ofCode
  split_ifs with h0 h1 h2 <;> simp_all <;> omega

theorem sub64_zero_one : sub64 0 1 = 2 ^ 64 - 1 := by
  norm_num [sub64]

theorem sub64_one_one : sub64 1 1 = 0 := by
  norm_num [sub64]

theorem parsePriority_error_code (buf : List Nat) (t L : Nat)
    (e : ErrorCode) (h : parsePriority buf ⟨t, L⟩ = .error e) :
    e = .HTTP_MALFORMED_FRAME_PRIORITY := by
  cases buf with
  | nil =>
    simp only [parsePriority, Except.error.injEq] at h
    exact h.symm
  | cons b rest =>
    unfold parsePriority at h
    dsimp only at h
    repeat' split at h
    all_goals simp_all

theorem parsePriority_zero (buf : List Nat) (t : Nat) :
    parsePriority buf ⟨t, 0⟩ = .error .HTTP_MALFORMED_FRAME_PRIORITY := by
  cases buf with
  | nil => rfl
  | cons b rest =>
    unfold parsePriority
    dsimp only
    rw [sub64_zero_one]
    repeat' split
    all_goals try rfl
    · rename_i x1 pt1 dt1 ex1 hfl hpt x2 pid n1 hq1 hdt x3 did n2 hq2
        bufy wy resty hdrop hres
      exfalso
      obtain ⟨h1a, h1b, h1c, h1d⟩ := decodeQuicInteger_bounds hq1
      obtain ⟨h2a, h2b, h2c, h2d⟩ := decodeQuicInteger_bounds hq2
      apply hres
      rw [sub64_of_le (by omega) (by omega) (by omega)]
      omega
    · rename_i x1 pt1 dt1 ex1 hfl hpt x2 pid n1 hq1 hdt bufy wy resty
        hdrop hres
      exfalso
      obtain ⟨h1a, h1b, h1c, h1d⟩ := decodeQuicInteger_bounds hq1
      apply hres
      rw [sub64_of_le (by omega) (by omega) (by omega)]
      omega

theorem parsePriority_ok_iff (b : Nat) (rest : List Nat) (t L : Nat)
    (hrest : L - 1 ≤ rest.length) (hL1 : 1 ≤ L) (h64 : L < 2 ^ 64) :
    priorityWireValid ((b :: rest).take L) = true ↔
      ∃ pu, parsePriority (b :: rest) ⟨t, L⟩ = .ok pu := by
  have htake : (b :: rest).take L = b :: rest.take (L - 1) := by
    cases L with
    | zero => omega
    | succ k => simp
  rw [htake]
  have hlen1 : (rest.take (L - 1)).length = L - 1 := by
    rw [List.length_take]
    omega
  have hdeceq1 : decodeQuicInteger (rest.take (L - 1)) (L - 1) =
      decodeQuicInteger rest (L - 1) := decodeQuicInteger_take hrest
  have hc1 : (b % 256) / 2 ^ 6 % 4 < 4 := Nat.mod_lt _ (by norm_num)
  have hc2 : (b % 256) / 2 ^ 4 % 4 < 4 := Nat.mod_lt _ (by norm_num)
  unfold priorityWireValid parsePriority decodePriorityFlags
    PRIORITIZED_TYPE_POS DEPENDENCY_TYPE_POS PRIORITY_EXCLUSIVE_MASK
  dsimp only
  rw [sub64_of_le (by omega : 1 ≤ L) (by omega) (by omega)]
  rw [hlen1, hdeceq1]
  by_cases hemp : (b % 256) % (2 ^ 3) = 0
  case neg =>
    rw [if_pos (show (b % 256) % 8 ≠ 0 by omega),
      if_pos (show (b % 256) % 2 ^ 3 ≠ 0 by omega)]
    simp
  case pos =>
    rw [if_neg (show ¬(b % 256) % 8 ≠ 0 by omega),
      if_neg (show ¬(b % 256) % 2 ^ 3 ≠ 0 by omega)]
    dsimp only
    simp only [PriorityElementType.ofCode_eq_treeRoot hc1,
      PriorityElementType.ofCode_eq_treeRoot hc2]
    by_cases hpt : (b % 256) / 2 ^ 6 % 4 = 3
    case pos =>
      rw [if_pos hpt, if_pos hpt]
      simp
    case neg =>
      rw [if_neg hpt, if_neg hpt]
      cases hdec1 : decodeQuicInteger rest (L - 1) with
      | none => simp
      | some pn =>
        obtain ⟨pid, n1⟩ := pn
        obtain ⟨h1a, h1b, h1c, h1d⟩ := decodeQuicInteger_bounds hdec1
        dsimp only
        by_cases hdt : (b % 256) / 2 ^ 4 % 4 = 3
        case pos =>
          have hdtP : PriorityElementType.ofCode ((b % 256) / 2 ^ 4 % 4) =
              PriorityElementType.TREE_ROOT :=
            (PriorityElementType.ofCode_eq_treeRoot hc2).mpr hdt
          rw [if_neg (show ¬(b % 256) / 2 ^ 4 % 4 ≠ 3 from
              not_not_intro hdt),
            if_neg (not_not_intro hdtP)]
          have hr1len : ((rest.take (L - 1)).drop n1).length =
              L - 1 - n1 := by
            rw [List.length_drop, hlen1]
          rw [hr1len]
          by_cases hk : L - 1 - n1 = 1
          case pos =>
            have hdlen : 1 ≤ (rest.drop n1).length := by
              rw [List.length_drop]
              omega
            cases hdr : rest.drop n1 with
            | nil =>
              rw [hdr] at hdlen
              simp at hdlen
            | cons w tl =>
              dsimp only
              rw [hk, sub64_one_one]
              simp
          case neg =>
            have hres : sub64 (L - 1 - n1) 1 ≠ 0 := by
              by_cases hk0 : L - 1 - n1 = 0
              · rw [hk0, sub64_zero_one]
                norm_num
              · rw [sub64_of_le (by omega) (by omega) (by omega)]
                omega
            cases hdr : rest.drop n1 with
            | nil => simp [hk]
            | cons w tl =>
              dsimp only
              rw [if_pos hres]
              simp [hk]
        case neg =>
          have hdtP : PriorityElementType.ofCode ((b % 256) / 2 ^ 4 % 4) ≠
              PriorityElementType.TREE_ROOT :=
            fun hh => hdt ((PriorityElementType.ofCode_eq_treeRoot hc2).mp hh)
          rw [if_pos (show (b % 256) / 2 ^ 4 % 4 ≠ 3 from hdt),
            if_pos hdtP]
          have hr1 : (rest.take (L - 1)).drop n1 =
              (rest.drop n1).take (L - 1 - n1) := by
            rw [List.drop_take]
          rw [hr1]
          have hr1len2 : ((rest.drop n1).take (L - 1 - n1)).length =
              L - 1 - n1 := by
            rw [List.length_take, List.length_drop]
            omega
          rw [hr1len2]
          rw [decodeQuicInteger_take
            (show L - 1 - n1 ≤ (rest.drop n1).length by
              rw [List.length_drop]; omega)]
          cases hdec2 : decodeQuicInteger (rest.drop n1) (L - 1 - n1) with
          | none => simp
          | some dn =>
            obtain ⟨did, n2⟩ := dn
            obtain ⟨h2a, h2b, h2c, h2d⟩ := decodeQuicInteger_bounds hdec2
            dsimp only
            have hr2len : (((rest.drop n1).take (L - 1 - n1)).drop
                n2).length = L - 1 - n1 - n2 := by
              rw [List.length_drop, List.length_take, List.length_drop]
              omega
            rw [hr2len]
            by_cases hk : L - 1 - n1 - n2 = 1
            case pos =>
              have hdlen : 1 ≤ (rest.drop (n1 + n2)).length := by
                rw [List.length_drop]
                rw [List.length_drop] at h2c
                omega
              cases hdr : rest.drop (n1 + n2) with
              | nil =>
                rw [hdr] at hdlen
                simp at hdlen
              | cons w tl =>
                dsimp only
                rw [hk, sub64_one_one]
                simp
            case neg =>
              have hres : sub64 (L - 1 - n1 - n2) 1 ≠ 0 := by
                by_cases hk0 : L - 1 - n1 - n2 = 0
                · rw [hk0, sub64_zero_one]
                  norm_num
                · rw [sub64_of_le (by omega) (by omega) (by omega)]
                  omega
              cases hdr : rest.drop (n1 + n2) with
              | nil => simp [hk]
              | cons w tl =>
                dsimp only
                rw [if_pos hres]
                simp [hk]

/-- C5: parsePriority reports HTTP_MALFORMED_FRAME_PRIORITY exactly on
the payloads whose declared-length slice is wire-invalid (nonzero empty
flag bits, TREE_ROOT prioritized type, a varint or octet that does not
fit the declared length, or a nonzero residual length), and parses every
wire-valid payload into a PriorityUpdate. -/
theorem c5_priority_malformed (buf : List Nat) (t L : Nat)
    (hlen : L ≤ buf.length) (h64 : L < 2 ^ 64) :
    (parsePriority buf ⟨t, L⟩ = .error .HTTP_MALFORMED_FRAME_PRIORITY ↔
      priorityWireValid (buf.take L) = false) ∧
    (priorityWireValid (buf.take L) = true →
      ∃ pu, parsePriority buf ⟨t, L⟩ = .ok pu) := by
  have hiff : priorityWireValid (buf.take L) = true ↔
      ∃ pu, parsePriority buf ⟨t, L⟩ = .ok pu := by
    cases buf with
    | nil =>
      have hL0 : L = 0 := by simpa using hlen
      subst hL0
      simp [priorityWireValid, parsePriority]
    | cons b rest =>
      by_cases hL1 : 1 ≤ L
      · have hrest : L - 1 ≤ rest.length := by
          simp only [List.length_cons] at hlen
          omega
        exact parsePriority_ok_iff b rest t L hrest hL1 h64
      · have hL0 : L = 0 := by omega
        subst hL0
        rw [parsePriority_zero]
        simp [priorityWireValid]
  constructor
  · constructor
    · intro herr
      cases hval : priorityWireValid (buf.take L) with
      | false => rfl
      | true =>
        obtain ⟨pu, hok⟩ := hiff.mp hval
        rw [herr] at hok
        exact absurd hok (by simp)
    · intro hval
      cases hres : parsePriority buf ⟨t, L⟩ with
      | ok pu =>
        have hcontra : priorityWireValid (buf.take L) = true :=
          hiff.mpr ⟨pu, hres⟩
        rw [hval] at hcontra
        exact absurd hcontra (by simp)
      | error e =>
        have he := parsePriority_error_code buf t L e hres
        rw [he]
  · exact fun hval => hiff.mp hval

theorem c5_priority_malformed_witness :
    (3 ≤ ([48, 37, 16] : List Nat).length ∧ 3 < 2 ^ 64) ∧
    ((parsePriority [48, 37, 16] ⟨2, 3⟩ =
        .error .HTTP_MALFORMED_FRAME_PRIORITY ↔
      priorityWireValid (([48, 37, 16] : List Nat).take 3) = false) ∧
    (priorityWireValid (([48, 37, 16] : List Nat).take 3) = true →
      ∃ pu, parsePriority [48, 37, 16] ⟨2, 3⟩ = .ok pu)) :=
  ⟨⟨by decide, by decide⟩,
    c5_priority_malformed [48, 37, 16] 2 3 (by decide) (by decide)⟩
